import Mathlib

/-!
Verification development for the conversation/session streaming coordinator
of the gpt_client repository (src/hooks/useMessages.ts).

The coordinator state (per-chat message lists, loading flags, tool states,
open stream handles, the pending-response registry, the global upload status
and the response-started flag) is embedded as an explicit state record.
Each operation of the hook (handleSubmit, the EventSource onmessage/onerror
handlers installed by setupEventSourceHandlers, stopQuery, clearMessages,
updateToolState, uploadFilesToChat, createQueryRequest) is translated into a
pure state-transition function.  Network calls are modelled by an
environment record supplying the outcome of each request, and every
operation additionally returns the list of network requests it issued, in
order.  Operations are modelled as atomic steps: the outcome of the awaited
network calls inside one operation is supplied up front by its environment.
Client-generated UUID message ids are modelled by a fresh counter held in
the state (the source relies only on their process-lifetime uniqueness).
-/

namespace GptClient

/-- Message sender role (`'user' | 'assistant'` in src/types/index.ts). -/
inductive Role where
  | user
  | assistant
deriving DecidableEq, Repr

/-- Message status (`'complete' | 'streaming'` in src/types/index.ts). -/
inductive MsgStatus where
  | streaming
  | complete
deriving DecidableEq, Repr

/-- Structured image result attached to an assistant message
(src/types/index.ts `ImageResult`). -/
structure ImageResult where
  url : String
  prompt : String
  filename : String
  timestamp : String
  isVariation : Bool
deriving DecidableEq, Repr

/-- One chat message (src/types/index.ts `Message`, plus the transient
`isUploadMessage` / `isImageGeneration` flags patched in by useMessages.ts). -/
structure Message where
  id : Nat
  role : Role
  content : String
  status : MsgStatus
  imageResult : Option ImageResult := none
  isUploadMessage : Bool := false
  isImageGeneration : Bool := false
deriving DecidableEq, Repr

/-- Canonical server-assigned file record (src/types/index.ts `ChatFile`). -/
structure ChatFile where
  id : String
  file_name : String
deriving DecidableEq, Repr

/-- Per-chat tool flags (useMessages.ts `ToolState`). -/
structure ToolState where
  isCodeAnalysisEnabled : Bool
  isWebSearchEnabled : Bool
  isImageCreatorEnabled : Bool
  isKnowledgeBasesEnabled : Bool
deriving DecidableEq, Repr

/-- Default state for a new chat: all tools disabled (useMessages.ts line 38). -/
def defaultToolState : ToolState :=
  { isCodeAnalysisEnabled := false
    isWebSearchEnabled := false
    isImageCreatorEnabled := false
    isKnowledgeBasesEnabled := false }

/-- Names of the four exclusive tool flags (the `keyof ToolState` argument of
`updateToolState`). -/
inductive ToolName where
  | codeAnalysis
  | webSearch
  | imageCreator
  | knowledgeBases
deriving DecidableEq, Repr

/-- Set a single flag of a tool state (the computed-key record update
`[toolName]: enabled` of useMessages.ts lines 131/146). -/
def ToolState.setFlag (ts : ToolState) (t : ToolName) (b : Bool) : ToolState :=
  match t with
  | .codeAnalysis => { ts with isCodeAnalysisEnabled := b }
  | .webSearch => { ts with isWebSearchEnabled := b }
  | .imageCreator => { ts with isImageCreatorEnabled := b }
  | .knowledgeBases => { ts with isKnowledgeBasesEnabled := b }

/-- An open EventSource connection for a chat: the URL it was opened with
(as an ordered list of query parameters) and the id of the assistant message
its handlers fill (the closure arguments of `setupEventSourceHandlers`). -/
structure StreamConn where
  url : List (String × String)
  messageId : Nat
deriving DecidableEq, Repr

/-- The global upload status for UI display (useMessages.ts line 74). -/
structure UploadStatus where
  isUploading : Bool
  isIndexing : Bool
deriving DecidableEq, Repr

/-- The whole mutable state of the useMessages hook.  JS `Record` maps keyed
by chat id become total functions from `String` (absent key = default). -/
structure CoordState where
  activeChat : Option String
  messagesMap : String → List Message
  loadingChats : String → Bool
  hasStartedResponse : Bool
  toolStatesMap : String → Option ToolState
  eventSources : String → Option StreamConn
  pendingMessages : String → Option Nat
  newChatIds : String → Bool
  uploadStatus : UploadStatus
  selectedModel : String
  nextId : Nat

/-- Point update of a string-keyed map. -/
def mapSet {α : Type} (m : String → α) (k : String) (v : α) : String → α :=
  fun q => if q = k then v else m q

@[simp] theorem mapSet_same {α : Type} (m : String → α) (k : String) (v : α) :
    mapSet m k v k = v := by
  simp [mapSet]

@[simp] theorem mapSet_ne {α : Type} (m : String → α) (k q : String) (v : α)
    (h : q ≠ k) : mapSet m k v q = m q := by
  simp [mapSet, h]

/-- The authenticated user handed to the hook (`User | null`); the model
keeps only the bearer token the coordinator actually uses. -/
structure UserT where
  token : String
deriving DecidableEq, Repr

/-- JS truthiness of `user?.token`: present and non-empty. -/
def tokenPresent : Option UserT → Bool
  | none => false
  | some u => u.token ≠ ""

/-- The token string `user?.token || ''`. -/
def tokenOf : Option UserT → String
  | none => ""
  | some u => u.token

/-- A binary attachment, abstracted: its content-type class (`image/*` or
not), whether the FileReader used for image preview succeeds, and an opaque
payload standing for its base64 data. -/
structure FileMeta where
  isImage : Bool
  readOk : Bool
  payload : String
deriving DecidableEq, Repr

/-- Options of the image-creation tool (src/components/ChatInput.tsx
`ImageOptions`): size/quality/style plus an optional reference image. -/
structure ImageOptions where
  size : String
  quality : String
  style : String
  image : Option FileMeta
deriving DecidableEq, Repr

/-- Knowledge-base selection (src/components/ChatInput.tsx
`KnowledgeBaseOptions`). -/
structure KnowledgeBaseOptions where
  kbName : String
deriving DecidableEq, Repr

/-- Result of the `createNewChat` collaborator. -/
structure Chat where
  id : String
  name : String
deriving DecidableEq, Repr

/-- Network requests issued by the coordinator, in issue order. -/
inductive NetRequest where
  | loginRedirect
  | createChatReq
  | renameReq (chatId : String) (name : String)
  | uploadReq (chatId : String) (fileType : String) (numFiles : Nat)
  | indexReq (chatId : String)
  | updateFilesCallback (chatId : String) (docs : List ChatFile) (code : List ChatFile)
  | stagingReq (chatId : String)
  | streamOpen (chatId : String) (url : List (String × String))
  | imageGenReq (chatId : String)
  | stopReq (chatId : String)
deriving DecidableEq, Repr

/-- Environment of one `handleSubmit` call: the user object plus the outcome
of every network request the submission may issue. -/
structure SubmitEnv where
  user : Option UserT
  createNewChatResult : Option Chat
  uploadOk : Bool
  uploadDocFiles : List ChatFile
  uploadCodeFiles : List ChatFile
  indexOk : Bool
  stagingSessionId : Option String
deriving Repr

/-- Environment of one `stopQuery` call: the user object and whether the
cancellation POST succeeds (`response.ok` and no network throw). -/
structure StopEnv where
  user : Option UserT
  stopOk : Bool
deriving DecidableEq, Repr

/-! ### Conversation store primitives -/

/-- `addMessageToChat` (useMessages.ts lines 298-335): generate a fresh
client id, append the message to the chat's list, return it. -/
def addMessageToChat (st : CoordState) (chatId : String) (role : Role)
    (content : String) (status : MsgStatus) (imageResult : Option ImageResult) :
    CoordState × Message :=
  let newMessage : Message :=
    { id := st.nextId, role := role, content := content, status := status
      imageResult := imageResult }
  ({ st with
      nextId := st.nextId + 1
      messagesMap := mapSet st.messagesMap chatId (st.messagesMap chatId ++ [newMessage]) },
   newMessage)

/-- The object-(partial-record-)shaped argument of `updateMessageInChat`. -/
structure FieldPatch where
  content : Option String := none
  status : Option MsgStatus := none
  isUploadMessage : Option Bool := none
  isImageGeneration : Option Bool := none

/-- The `Partial<Message> | ((prev: string) => string)` update argument. -/
inductive MsgUpdate where
  | fields (p : FieldPatch)
  | withFn (f : String → String)

/-- Apply an update to one message: a function argument rewrites the content
from the previous content; an object argument merges the given fields. -/
def applyUpdate (u : MsgUpdate) (m : Message) : Message :=
  match u with
  | .withFn f => { m with content := f m.content }
  | .fields p =>
      { m with
          content := p.content.getD m.content
          status := p.status.getD m.status
          isUploadMessage := p.isUploadMessage.getD m.isUploadMessage
          isImageGeneration := p.isImageGeneration.getD m.isImageGeneration }

/-- `updateMessageInChat` (useMessages.ts lines 277-295): map over the
chat's list, patching every message whose id matches (a non-existent id is a
no-op). -/
def updateMessageInChat (st : CoordState) (chatId : String) (messageId : Nat)
    (u : MsgUpdate) : CoordState :=
  { st with
      messagesMap := mapSet st.messagesMap chatId
        ((st.messagesMap chatId).map fun m =>
          if m.id = messageId then applyUpdate u m else m) }

/-! ### String helpers

The JS string primitives used by the hook (`String.prototype.trim` and the
global regex replace of `[NEWLINE]`) are modelled by structurally recursive
functions on the character list so that every theorem can be evaluated by
the kernel. -/

/-- Whitespace test for the model of `trim`. -/
def isWsChar (c : Char) : Bool :=
  c = ' ' ∨ c = '\t' ∨ c = '\n' ∨ c = '\r'

/-- Model of JS `input.trim()`. -/
def trimStr (s : String) : String :=
  ⟨((s.data.dropWhile isWsChar).reverse.dropWhile isWsChar).reverse⟩

/-- Replace every occurrence of `[NEWLINE]` (as a character list) with a
newline character, left to right. -/
def replaceNLList : List Char → List Char
  | '[' :: 'N' :: 'E' :: 'W' :: 'L' :: 'I' :: 'N' :: 'E' :: ']' :: cs =>
      '\n' :: replaceNLList cs
  | c :: cs => c :: replaceNLList cs
  | [] => []

/-- Model of `content.replace(/\[NEWLINE\]/g, '\n')`
(useMessages.ts line 831). -/
def replaceNewlines (s : String) : String :=
  ⟨replaceNLList s.data⟩

/-! ### Tool-Mode register -/

/-- `updateToolState` (useMessages.ts lines 122-153): the state key is the
active chat or the `"new"` draft sentinel; enabling a tool replaces the slot
by the all-false record with only the requested flag set, disabling only
clears the requested flag of the current slot value. -/
def updateToolState (st : CoordState) (toolName : ToolName) (enabled : Bool) :
    CoordState :=
  let stateKey := st.activeChat.getD "new"
  let currentState := (st.toolStatesMap stateKey).getD defaultToolState
  let newState :=
    if enabled then
      ToolState.setFlag defaultToolState toolName true
    else
      ToolState.setFlag currentState toolName false
  { st with toolStatesMap := mapSet st.toolStatesMap stateKey (some newState) }

/-! ### Upload sub-protocol -/

/-- Outcome of `uploadFilesToChat`: the state after its status updates, the
requests it issued, and `some (docFiles, codeFiles)` on success or `none`
when it threw (failed upload, failed indexing, or missing credential). -/
structure UploadOutcome where
  state : CoordState
  reqs : List NetRequest
  result : Option (List ChatFile × List ChatFile)

/-- The `file_type` classification of an upload (useMessages.ts lines
391-393): the chat's tool state, falling back to the draft slot and then the
default, classifies as `"code"` exactly when code analysis is enabled. -/
def uploadFileTypeFor (st : CoordState) (chatId : String) : String :=
  if ((st.toolStatesMap chatId).getD
      ((st.toolStatesMap "new").getD defaultToolState)).isCodeAnalysisEnabled
  then "code" else "doc"

/-- `uploadFilesToChat` (useMessages.ts lines 382-455): one multipart upload
POST tagged `file_type` `"code"` (when code analysis is the active tool for
the chat, falling back to the draft slot) or `"doc"`; docs are then indexed;
the global upload status goes uploading, then indexing for docs, then idle
on every exit path after the initial credential check. -/
def uploadFilesToChat (st : CoordState) (env : SubmitEnv) (chatId : String)
    (files : List FileMeta) : UploadOutcome :=
  if tokenPresent env.user = false then
    { state := st, reqs := [], result := none }
  else
    let st1 := { st with uploadStatus := { isUploading := true, isIndexing := false } }
    let fileType := uploadFileTypeFor st1 chatId
    let r1 : List NetRequest := [.uploadReq chatId fileType files.length]
    if env.uploadOk = false then
      { state := { st1 with uploadStatus := { isUploading := false, isIndexing := false } }
        reqs := r1, result := none }
    else
      let docFiles := env.uploadDocFiles
      let codeFiles := env.uploadCodeFiles
      let r2 := r1 ++ [.updateFilesCallback chatId docFiles codeFiles]
      if fileType = "doc" then
        let st2 := { st1 with uploadStatus := { isUploading := false, isIndexing := true } }
        let r3 := r2 ++ [.indexReq chatId]
        if env.indexOk = false then
          { state := { st2 with uploadStatus := { isUploading := false, isIndexing := false } }
            reqs := r3, result := none }
        else
          { state := { st2 with uploadStatus := { isUploading := false, isIndexing := false } }
            reqs := r3, result := some (docFiles, codeFiles) }
      else
        { state := { st1 with uploadStatus := { isUploading := false, isIndexing := false } }
          reqs := r2, result := some (docFiles, codeFiles) }

/-! ### Session/query sub-protocol -/

/-- JS truthiness filter for an optional string (`if (sessionId)`,
`&& kbName`): an empty string counts as absent. -/
def strTruthy : Option String → Option String
  | none => none
  | some s => if s = "" then none else some s

/-- `createQueryRequest` (useMessages.ts lines 458-578): close any previous
stream for the chat, attempt a staging session exactly when the message
exceeds 1000 characters or image attachments are present (a failed attempt
falls back to a direct query), build the stream URL parameters in source
order, and open the EventSource recording the assistant message id. -/
def createQueryRequest (st : CoordState) (env : SubmitEnv) (userMessage : String)
    (assistantMessageId : Nat) (chatId : String) (imageFiles : List FileMeta)
    (kbName : Option String) (keepOriginalFiles : Bool) :
    CoordState × List NetRequest :=
  let st0 := { st with eventSources := mapSet st.eventSources chatId none }
  let effectiveToolState := (st0.toolStatesMap chatId).getD defaultToolState
  let isLongMessage := userMessage ≠ "" ∧ userMessage.length > 1000
  let hasImages := imageFiles.length > 0
  let stage := isLongMessage ∨ hasImages
  let sessionId := if stage then strTruthy env.stagingSessionId else none
  let r1 : List NetRequest := if stage then [.stagingReq chatId] else []
  let p1 : List (String × String) :=
    [("chat_id", chatId), ("token", tokenOf env.user),
     ("deployment_name", st0.selectedModel)]
  let p2 := p1 ++ (if keepOriginalFiles then [("keep_original_files", "true")] else [])
  let source : Option String :=
    if effectiveToolState.isCodeAnalysisEnabled then some "code"
    else if effectiveToolState.isWebSearchEnabled then some "web"
    else if effectiveToolState.isKnowledgeBasesEnabled then
      (strTruthy kbName).map (fun n => "kb." ++ n)
    else none
  let p3 := p2 ++ (match source with | some s => [("source", s)] | none => [])
  let p4 := p3 ++
    (match sessionId with
     | some sid => [("session_id", sid)]
     | none => if userMessage ≠ "" then [("query", userMessage)] else [])
  let conn : StreamConn := { url := p4, messageId := assistantMessageId }
  ({ st0 with eventSources := mapSet st0.eventSources chatId (some conn) },
   r1 ++ [.streamOpen chatId p4])

/-! ### Submission orchestrator -/

/-- Result of one `handleSubmit` call: the boolean it returns, the state it
leaves behind, and the network requests it issued. -/
structure SubmitResult where
  ok : Bool
  state : CoordState
  reqs : List NetRequest

/-- The JSON-string content stored for an attached image
(`createImageMessageFromFile`, useMessages.ts lines 884-933). -/
def imageJson (f : FileMeta) : String :=
  "\x7b\"type\":\"image\",\"data\":\"" ++ f.payload ++ "\"\x7d"

/-- `createImageMessageFromFile`: for an image file whose read succeeds,
append an already-complete user message holding the JSON image descriptor;
otherwise resolve to nothing. -/
def createImageMessageFromFile (st : CoordState) (f : FileMeta) (chatId : String) :
    CoordState × Option Message :=
  if f.isImage = false then (st, none)
  else if f.readOk = false then (st, none)
  else
    let r := addMessageToChat st chatId .user (imageJson f) .complete none
    (r.1, some r.2)

/-- The error text of the submit-path catch block (useMessages.ts line 772). -/
def uploadErrorText : String :=
  "Error uploading files or processing request. Please try again."

/-- The patch marking the assistant message as an upload message
(useMessages.ts lines 717-719). -/
def uploadFlagPatch : MsgUpdate := .fields { isUploadMessage := some true }

/-- The patch clearing the upload flag after the upload sub-protocol
returned (useMessages.ts lines 728-730). -/
def uploadFlagOffPatch : MsgUpdate := .fields { isUploadMessage := some false }

/-- The patch of the submit-path catch block (useMessages.ts lines 771-776):
error text, completion, and the upload flag cleared. -/
def uploadErrorPatch : MsgUpdate :=
  .fields { content := some uploadErrorText, status := some MsgStatus.complete
            isUploadMessage := some false }

/-- Phase three of `handleSubmit` (lines 733-765): once uploads are done,
either register the pending response and fire the image generation or the
streaming query, or finalize the upload-only assistant message. -/
def submitPhase3 (st : CoordState) (env : SubmitEnv) (targetChatId : String)
    (userMessage : String) (imageFiles : List FileMeta)
    (isInImageCreatorMode : Bool) (kbOptions : Option KnowledgeBaseOptions)
    (keepOriginalFiles : Bool) (amId : Nat) (r : List NetRequest) : SubmitResult :=
  if userMessage ≠ "" ∨ imageFiles.length > 0 ∨ isInImageCreatorMode then
    let st1 := { st with pendingMessages := mapSet st.pendingMessages targetChatId (some amId) }
    if isInImageCreatorMode then
      let st2 := updateMessageInChat st1 targetChatId amId
        (.fields { isImageGeneration := some true })
      if tokenPresent env.user then
        let st3 := { st2 with loadingChats := mapSet st2.loadingChats targetChatId true }
        { ok := true, state := st3, reqs := r ++ [.imageGenReq targetChatId] }
      else
        { ok := true, state := st2, reqs := r }
    else
      let effectiveToolState := (st1.toolStatesMap targetChatId).getD defaultToolState
      let kbName : Option String :=
        if effectiveToolState.isKnowledgeBasesEnabled ∧ kbOptions.isSome then
          kbOptions.map (fun o => o.kbName)
        else none
      let q := createQueryRequest st1 env userMessage amId targetChatId imageFiles
        kbName keepOriginalFiles
      { ok := true, state := q.1, reqs := r ++ q.2 }
  else
    let st1 := updateMessageInChat st targetChatId amId
      (.fields { content := some "Files uploaded successfully.", status := some .complete })
    let st2 := { st1 with loadingChats := mapSet st1.loadingChats targetChatId false }
    { ok := true, state := st2, reqs := r }

/-- The upload block of `handleSubmit` (lines 714-731 together with the
catch of 767-784): mark the assistant message as an upload message, run the
upload sub-protocol, and either finalize the message with the error text
(clearing loading and pending) or clear the flag, propagate the returned
file lists, and continue with phase three. -/
def submitUploadPhase (st : CoordState) (env : SubmitEnv) (targetChatId : String)
    (userMessage : String) (imageFiles nonImageFiles : List FileMeta)
    (isInImageCreatorMode : Bool) (kbOptions : Option KnowledgeBaseOptions)
    (keepOriginalFiles : Bool) (amId : Nat) (r : List NetRequest) : SubmitResult :=
  let st6 := updateMessageInChat st targetChatId amId
    uploadFlagPatch
  let u := uploadFilesToChat st6 env targetChatId nonImageFiles
  match u.result with
  | none =>
      let st7 := updateMessageInChat u.state targetChatId amId uploadErrorPatch
      let st8 := { st7 with
        loadingChats := mapSet st7.loadingChats targetChatId false
        pendingMessages := mapSet st7.pendingMessages targetChatId none }
      { ok := true, state := st8, reqs := r ++ u.reqs }
  | some dc =>
      let st7 := updateMessageInChat u.state targetChatId amId
        uploadFlagOffPatch
      submitPhase3 st7 env targetChatId userMessage imageFiles
        isInImageCreatorMode kbOptions keepOriginalFiles amId
        (r ++ u.reqs ++ [.updateFilesCallback targetChatId dc.1 dc.2])

/-- The work block of `handleSubmit` (the conditional of lines 698-785):
when any work remains, mark the chat loading, append the single streaming
assistant message, and run the upload block or phase three. -/
def submitPhase2b (st : CoordState) (env : SubmitEnv) (targetChatId : String)
    (userMessage : String) (imageFiles nonImageFiles : List FileMeta)
    (isInImageCreatorMode : Bool) (kbOptions : Option KnowledgeBaseOptions)
    (keepOriginalFiles : Bool) (r : List NetRequest) : SubmitResult :=
  if nonImageFiles.length > 0 ∨ userMessage ≠ "" ∨ imageFiles.length > 0 then
    let st4 := { st with loadingChats := mapSet st.loadingChats targetChatId true }
    let ar := addMessageToChat st4 targetChatId .assistant "" .streaming none
    let st5 := ar.1
    let amId := ar.2.id
    if nonImageFiles.length > 0 then
      submitUploadPhase st5 env targetChatId userMessage imageFiles nonImageFiles
        isInImageCreatorMode kbOptions keepOriginalFiles amId r
    else
      submitPhase3 st5 env targetChatId userMessage imageFiles
        isInImageCreatorMode kbOptions keepOriginalFiles amId r
  else
    { ok := true, state := st, reqs := r }

/-- Phase two of `handleSubmit` (lines 667-794): materialize the image and
text user messages, then run the work block. -/
def submitPhase2 (st : CoordState) (env : SubmitEnv) (targetChatId : String)
    (userMessage : String) (files : List FileMeta)
    (isInImageCreatorMode : Bool) (kbOptions : Option KnowledgeBaseOptions)
    (keepOriginalFiles : Bool) (r : List NetRequest) : SubmitResult :=
  let st1 := { st with hasStartedResponse := true }
  let imageFiles := files.filter (fun f => f.isImage)
  let nonImageFiles := files.filter (fun f => f.isImage = false)
  let st2 := imageFiles.foldl
    (fun s f => (createImageMessageFromFile s f targetChatId).1) st1
  let st3 :=
    if userMessage ≠ "" ∨ nonImageFiles.length > 0 then
      (addMessageToChat st2 targetChatId .user
        (if userMessage ≠ "" then userMessage else "Files shared") .complete none).1
    else st2
  submitPhase2b st3 env targetChatId userMessage imageFiles nonImageFiles
    isInImageCreatorMode kbOptions keepOriginalFiles r

/-- The proposed chat name for a freshly created conversation
(useMessages.ts lines 647-656). -/
def chatNameTextFor (userMessage : String) (files : List FileMeta) : String :=
  if userMessage ≠ "" then userMessage
  else if files.any (fun f => f.isImage) then "Image conversation"
  else if files.any (fun f => f.isImage = false) then "Document conversation"
  else "New conversation"

/-- The tool state consulted by `handleSubmit` (useMessages.ts lines
613-615): the active chat's slot, or the `"new"` draft slot for a draft
conversation. -/
def currentToolStateFor (st : CoordState) : ToolState :=
  match st.activeChat with
  | some c => (st.toolStatesMap c).getD defaultToolState
  | none => (st.toolStatesMap "new").getD defaultToolState

/-- `handleSubmit` (useMessages.ts lines 581-795): reject when
unauthenticated (with a login redirect), when there is no content at all,
when non-image files come without text, or when the active conversation is
busy (loading flag set or pending-response entry present); otherwise acquire
the target conversation (creating one, copying the draft tool state and
proposing a name, when there is no active chat) and run phase two. -/
def handleSubmit (st : CoordState) (env : SubmitEnv) (input : String)
    (files : List FileMeta) (imageOptions : Option ImageOptions)
    (kbOptions : Option KnowledgeBaseOptions) (keepOriginalFiles : Bool) :
    SubmitResult :=
  if env.user.isNone then
    { ok := false, state := st, reqs := [.loginRedirect] }
  else
    let hasText : Bool := trimStr input ≠ ""
    let hasFiles : Bool := files.length > 0
    let hasImages : Bool := files.any (fun f => f.isImage) ||
      imageOptions.any (fun o => o.image.isSome)
    let hasNonImageFiles : Bool := files.any (fun f => f.isImage = false)
    if hasText = false ∧ hasFiles = false ∧ hasImages = false then
      { ok := false, state := st, reqs := [] }
    else if hasNonImageFiles ∧ hasText = false then
      { ok := false, state := st, reqs := [] }
    else if (match st.activeChat with
             | some c => st.loadingChats c || (st.pendingMessages c).isSome
             | none => false : Bool) then
      { ok := false, state := st, reqs := [] }
    else
      let st1 := { st with hasStartedResponse := false }
      let userMessage := trimStr input
      let currentToolState := currentToolStateFor st1
      let isInImageCreatorMode : Bool :=
        currentToolState.isImageCreatorEnabled && imageOptions.isSome &&
          (userMessage ≠ "")
      match st1.activeChat with
      | some c =>
          submitPhase2 st1 env c userMessage files isInImageCreatorMode
            kbOptions keepOriginalFiles []
      | none =>
          match env.createNewChatResult with
          | none => { ok := false, state := st1, reqs := [.createChatReq] }
          | some newChat =>
              let st2 := { st1 with activeChat := some newChat.id }
              let st3 := { st2 with newChatIds := mapSet st2.newChatIds newChat.id true }
              let newChatToolState := (st3.toolStatesMap "new").getD defaultToolState
              let st4 := { st3 with
                toolStatesMap := mapSet st3.toolStatesMap newChat.id (some newChatToolState) }
              let chatNameText := chatNameTextFor userMessage files
              submitPhase2 st4 env newChat.id userMessage files isInImageCreatorMode
                kbOptions keepOriginalFiles
                [.createChatReq, .renameReq newChat.id chatNameText]

/-! ### Stream event handling -/

/-- The `onmessage` handler installed by `setupEventSourceHandlers`
(useMessages.ts lines 799-835), as a transition fired only while a stream is
open for the chat: `[DONE]` closes the stream, clears loading, completes the
pending message and removes the pending entry; any other payload is appended
to the message content with `[NEWLINE]` rewritten to a newline. -/
def esOnMessage (st : CoordState) (chatId : String) (data : String) : CoordState :=
  match st.eventSources chatId with
  | none => st
  | some conn =>
      let st1 :=
        if st.activeChat = some chatId ∧ st.hasStartedResponse = false then
          { st with hasStartedResponse := true }
        else st
      if data = "[DONE]" then
        let st2 := { st1 with eventSources := mapSet st1.eventSources chatId none }
        let st3 := { st2 with loadingChats := mapSet st2.loadingChats chatId false }
        let st4 := updateMessageInChat st3 chatId conn.messageId
          (.fields { status := some .complete })
        let st5 := { st4 with pendingMessages := mapSet st4.pendingMessages chatId none }
        if st5.newChatIds chatId then
          { st5 with newChatIds := mapSet st5.newChatIds chatId false }
        else st5
      else
        updateMessageInChat st1 chatId conn.messageId
          (.withFn fun prev => prev ++ replaceNewlines data)

/-- The transport-error suffix appended to partial content
(useMessages.ts line 857). -/
def interruptedSuffix : String :=
  "\n\n(The connection was interrupted. The response may be incomplete.)"

/-- The generic failure text (useMessages.ts lines 572 and 858). -/
def genericErrorText : String :=
  "Sorry, I encountered an error while processing your request."

/-- The error text chosen by the `onerror` handler (useMessages.ts lines
851-858): the partial content with a distinguishing suffix, or the generic
failure string when the content is blank. -/
def errMessageFor (l : List Message) (mid : Nat) : String :=
  let currentContent := ((l.find? (fun m => m.id = mid)).map (fun m => m.content)).getD ""
  if trimStr currentContent ≠ "" then currentContent ++ interruptedSuffix
  else genericErrorText

/-- The `onerror` handler installed by `setupEventSourceHandlers`
(useMessages.ts lines 837-875): close and discard the stream, clear loading,
and only when the pending entry still points at this message finalize it
with a suffix (or the generic failure string) and remove the entry. -/
def esOnError (st : CoordState) (chatId : String) : CoordState :=
  match st.eventSources chatId with
  | none => st
  | some conn =>
      let st1 := { st with eventSources := mapSet st.eventSources chatId none }
      let st2 := { st1 with loadingChats := mapSet st1.loadingChats chatId false }
      let st3 :=
        if st2.pendingMessages chatId = some conn.messageId then
          let st4 := updateMessageInChat st2 chatId conn.messageId
            (.fields { content := some (errMessageFor (st2.messagesMap chatId) conn.messageId)
                       status := some .complete })
          { st4 with pendingMessages := mapSet st4.pendingMessages chatId none }
        else st2
      if st3.newChatIds chatId then
        { st3 with newChatIds := mapSet st3.newChatIds chatId false }
      else st3

/-! ### Stop/Cancel and clear -/

/-- `stopQuery` (useMessages.ts lines 936-977): nothing happens without a
credential; otherwise the cancellation POST is issued, and on success the
stream is closed, a still-streaming last message is completed in place, the
pending entry, loading flag, upload status and response-started flag are
cleared; when the POST fails only the pending entry, loading flag and upload
status are cleared (the catch block). -/
def stopQuery (st : CoordState) (env : StopEnv) (chatId : String) :
    CoordState × List NetRequest :=
  if tokenPresent env.user = false then (st, [])
  else if env.stopOk then
    let st1 :=
      match st.eventSources chatId with
      | some _ => { st with eventSources := mapSet st.eventSources chatId none }
      | none => st
    let st2 :=
      match (st1.messagesMap chatId).getLast? with
      | some lastMessage =>
          if lastMessage.status = MsgStatus.streaming then
            updateMessageInChat st1 chatId lastMessage.id
              (.fields { status := some .complete })
          else st1
      | none => st1
    let st3 := { st2 with pendingMessages := mapSet st2.pendingMessages chatId none }
    let st4 := { st3 with loadingChats := mapSet st3.loadingChats chatId false }
    let st5 := { st4 with uploadStatus := { isUploading := false, isIndexing := false } }
    ({ st5 with hasStartedResponse := false }, [.stopReq chatId])
  else
    let st1 := { st with pendingMessages := mapSet st.pendingMessages chatId none }
    let st2 := { st1 with loadingChats := mapSet st1.loadingChats chatId false }
    ({ st2 with uploadStatus := { isUploading := false, isIndexing := false } },
     [.stopReq chatId])

/-- `clearMessages` (useMessages.ts lines 980-1002): empty the active chat's
list, close its stream, clear its loading flag and pending entry, reset the
upload status and the response-started flag. -/
def clearMessages (st : CoordState) : CoordState :=
  match st.activeChat with
  | none => st
  | some c =>
      let st1 := { st with messagesMap := mapSet st.messagesMap c [] }
      let st2 :=
        match st1.eventSources c with
        | some _ => { st1 with eventSources := mapSet st1.eventSources c none }
        | none => st1
      let st3 := { st2 with loadingChats := mapSet st2.loadingChats c false }
      let st4 := { st3 with
        uploadStatus := { isUploading := false, isIndexing := false }
        hasStartedResponse := false }
      { st4 with pendingMessages := mapSet st4.pendingMessages c none }

/-! ### Operation alphabet for whole-system invariants -/

/-- The operations a client of the coordinator can fire (the alphabet over
which the streaming invariant is stated): a submission, a stream payload
event, a stream transport error, a stop, and a clear. -/
inductive Op where
  | submit (env : SubmitEnv) (input : String) (files : List FileMeta)
      (imageOptions : Option ImageOptions) (kbOptions : Option KnowledgeBaseOptions)
      (keepOriginalFiles : Bool)
  | streamMsg (chatId : String) (data : String)
  | streamErr (chatId : String)
  | stop (env : StopEnv) (chatId : String)
  | clear

/-- One step of the coordinator under an operation. -/
def step (st : CoordState) (op : Op) : CoordState :=
  match op with
  | .submit env input files io ko keep => (handleSubmit st env input files io ko keep).state
  | .streamMsg chatId data => esOnMessage st chatId data
  | .streamErr chatId => esOnError st chatId
  | .stop env chatId => (stopQuery st env chatId).1
  | .clear => clearMessages st

/-- Run a sequence of operations. -/
def runOps (st : CoordState) (ops : List Op) : CoordState :=
  ops.foldl step st

/-! ### Concrete states used in scenarios -/

/-- The state of a freshly mounted hook with one empty active conversation
`"c"` and all tools off (the configuration of the specification's
scenarios). -/
def readyState : CoordState :=
  { activeChat := some "c"
    messagesMap := fun _ => []
    loadingChats := fun _ => false
    hasStartedResponse := false
    toolStatesMap := fun k => if k = "new" then some defaultToolState else none
    eventSources := fun _ => none
    pendingMessages := fun _ => none
    newChatIds := fun _ => false
    uploadStatus := { isUploading := false, isIndexing := false }
    selectedModel := "GPT-4.1"
    nextId := 0 }

/-- An authenticated environment whose every network call succeeds and whose
staging call returns session id `"s1"`. -/
def okEnv : SubmitEnv :=
  { user := some { token := "t" }
    createNewChatResult := some { id := "c9", name := "c9" }
    uploadOk := true
    uploadDocFiles := [{ id := "f1", file_name := "a.pdf" }]
    uploadCodeFiles := []
    indexOk := true
    stagingSessionId := some "s1" }

/-! ### Basic simp lemmas about the store primitives -/

@[simp] theorem mapSet_mapSet {α : Type} (m : String → α) (k : String) (a b : α) :
    mapSet (mapSet m k a) k b = mapSet m k b := by
  funext q
  by_cases h : q = k <;> simp [mapSet, h]

@[simp] theorem updateMessageInChat_messagesMap_self (st : CoordState) (c : String)
    (mid : Nat) (u : MsgUpdate) :
    (updateMessageInChat st c mid u).messagesMap c =
      (st.messagesMap c).map (fun m => if m.id = mid then applyUpdate u m else m) := by
  simp [updateMessageInChat]

@[simp] theorem updateMessageInChat_messagesMap_ne (st : CoordState) (c k : String)
    (mid : Nat) (u : MsgUpdate) (h : k ≠ c) :
    (updateMessageInChat st c mid u).messagesMap k = st.messagesMap k := by
  simp [updateMessageInChat, h]

@[simp] theorem updateMessageInChat_pendingMessages (st : CoordState) (c : String)
    (mid : Nat) (u : MsgUpdate) :
    (updateMessageInChat st c mid u).pendingMessages = st.pendingMessages := rfl

@[simp] theorem updateMessageInChat_eventSources (st : CoordState) (c : String)
    (mid : Nat) (u : MsgUpdate) :
    (updateMessageInChat st c mid u).eventSources = st.eventSources := rfl

@[simp] theorem updateMessageInChat_loadingChats (st : CoordState) (c : String)
    (mid : Nat) (u : MsgUpdate) :
    (updateMessageInChat st c mid u).loadingChats = st.loadingChats := rfl

@[simp] theorem addMessageToChat_snd (st : CoordState) (c : String) (r : Role)
    (content : String) (s : MsgStatus) (ir : Option ImageResult) :
    (addMessageToChat st c r content s ir).2 =
      { id := st.nextId, role := r, content := content, status := s, imageResult := ir } := rfl

@[simp] theorem addMessageToChat_fst_messagesMap_self (st : CoordState) (c : String)
    (r : Role) (content : String) (s : MsgStatus) (ir : Option ImageResult) :
    (addMessageToChat st c r content s ir).1.messagesMap c =
      st.messagesMap c ++
        [{ id := st.nextId, role := r, content := content, status := s, imageResult := ir }] := by
  simp [addMessageToChat]

@[simp] theorem addMessageToChat_fst_messagesMap_ne (st : CoordState) (c k : String)
    (r : Role) (content : String) (s : MsgStatus) (ir : Option ImageResult) (h : k ≠ c) :
    (addMessageToChat st c r content s ir).1.messagesMap k = st.messagesMap k := by
  simp [addMessageToChat, h]

@[simp] theorem addMessageToChat_fst_pendingMessages (st : CoordState) (c : String)
    (r : Role) (content : String) (s : MsgStatus) (ir : Option ImageResult) :
    (addMessageToChat st c r content s ir).1.pendingMessages = st.pendingMessages := rfl

@[simp] theorem addMessageToChat_fst_eventSources (st : CoordState) (c : String)
    (r : Role) (content : String) (s : MsgStatus) (ir : Option ImageResult) :
    (addMessageToChat st c r content s ir).1.eventSources = st.eventSources := rfl

@[simp] theorem addMessageToChat_fst_loadingChats (st : CoordState) (c : String)
    (r : Role) (content : String) (s : MsgStatus) (ir : Option ImageResult) :
    (addMessageToChat st c r content s ir).1.loadingChats = st.loadingChats := rfl

@[simp] theorem applyUpdate_fields_status (p : FieldPatch) (m : Message) :
    (applyUpdate (.fields p) m).status = p.status.getD m.status := rfl

@[simp] theorem applyUpdate_fields_id (p : FieldPatch) (m : Message) :
    (applyUpdate (.fields p) m).id = m.id := rfl

@[simp] theorem applyUpdate_withFn_status (f : String → String) (m : Message) :
    (applyUpdate (.withFn f) m).status = m.status := rfl

@[simp] theorem applyUpdate_withFn_id (f : String → String) (m : Message) :
    (applyUpdate (.withFn f) m).id = m.id := rfl

/-! ### The streaming invariant -/

/-- No message of the list is still streaming. -/
def noStreaming (l : List Message) : Prop :=
  ∀ m ∈ l, m.status ≠ MsgStatus.streaming

/-- Shape of a well-formed per-conversation message list relative to the
conversation's pending-response entry: either nothing is streaming, or
exactly the last message is streaming and the pending entry points at it. -/
def okList (p : Option Nat) (l : List Message) : Prop :=
  noStreaming l ∨
    ∃ pre m, l = pre ++ [m] ∧ m.status = MsgStatus.streaming ∧ noStreaming pre ∧
      p = some m.id

/-- The per-conversation streaming invariant: the message list is well
formed for the pending entry, and an open stream's target message is the
pending one. -/
def InvAt (st : CoordState) (c : String) : Prop :=
  okList (st.pendingMessages c) (st.messagesMap c) ∧
    ∀ conn, st.eventSources c = some conn → st.pendingMessages c = some conn.messageId

/-- The global streaming invariant. -/
def Inv (st : CoordState) : Prop :=
  ∀ c, InvAt st c

/-- Count of streaming messages in a list. -/
def countStreaming (l : List Message) : Nat :=
  (l.filter (fun m => m.status = MsgStatus.streaming)).length

theorem noStreaming_nil : noStreaming [] := by
  intro m h
  cases h

theorem noStreaming_append {a b : List Message} (ha : noStreaming a)
    (hb : noStreaming b) : noStreaming (a ++ b) := by
  intro m hm
  rcases List.mem_append.1 hm with h | h
  · exact ha m h
  · exact hb m h

theorem noStreaming_countStreaming {l : List Message} (h : noStreaming l) :
    countStreaming l = 0 := by
  unfold countStreaming
  rw [List.length_eq_zero]
  rw [List.filter_eq_nil_iff]
  intro m hm
  simpa using h m hm

theorem okList_countStreaming {p : Option Nat} {l : List Message}
    (h : okList p l) : countStreaming l ≤ 1 := by
  rcases h with h | ⟨pre, m, rfl, hs, hpre, hp⟩
  · simp [noStreaming_countStreaming h]
  · unfold countStreaming
    rw [List.filter_append]
    rw [List.length_append]
    have h1 : (List.filter (fun m => decide (m.status = MsgStatus.streaming)) pre).length = 0 :=
      noStreaming_countStreaming hpre
    rw [h1]
    have h2 : (List.filter (fun m => decide (m.status = MsgStatus.streaming)) [m]).length ≤ 1 := by
      simp [List.filter]
      split <;> simp
    omega

theorem okList_none {l : List Message} (h : okList none l) : noStreaming l := by
  rcases h with h | ⟨pre, m, _, _, _, hp⟩
  · exact h
  · cases hp

theorem noStreaming_map {l : List Message} (g : Message → Message)
    (hg : ∀ m, m.status ≠ MsgStatus.streaming → (g m).status ≠ MsgStatus.streaming)
    (h : noStreaming l) : noStreaming (l.map g) := by
  intro m hm
  rcases List.mem_map.1 hm with ⟨x, hx, rfl⟩
  exact hg x (h x hx)

theorem okList_map_pres {p : Option Nat} {l : List Message} (g : Message → Message)
    (hs : ∀ m, (g m).status = m.status) (hi : ∀ m, (g m).id = m.id)
    (h : okList p l) : okList p (l.map g) := by
  rcases h with h | ⟨pre, m, rfl, hstr, hpre, hp⟩
  · exact Or.inl (noStreaming_map g (fun m hm => by rw [hs m]; exact hm) h)
  · refine Or.inr ⟨pre.map g, g m, ?_, ?_, ?_, ?_⟩
    · simp
    · rw [hs m]; exact hstr
    · exact noStreaming_map g (fun m hm => by rw [hs m]; exact hm) hpre
    · rw [hi m]; exact hp

/-- Completing the message the pending entry points at leaves no streaming
message, whatever the id collisions, provided the update makes every patched
message complete. -/
theorem okList_complete_noStreaming {l : List Message} {mid : Nat} {u : MsgUpdate}
    (hu : ∀ m, (applyUpdate u m).status = MsgStatus.complete)
    (h : okList (some mid) l) :
    noStreaming (l.map fun m => if m.id = mid then applyUpdate u m else m) := by
  rcases h with h | ⟨pre, m, rfl, hstr, hpre, hp⟩
  · refine noStreaming_map _ (fun m hm => ?_) h
    by_cases hc : m.id = mid
    · simp [hc, hu m]
    · simp [hc, hm]
  · have hm : m.id = mid := (Option.some.inj hp).symm
    rw [List.map_append]
    refine noStreaming_append ?_ ?_
    · refine noStreaming_map _ (fun x hx => ?_) hpre
      by_cases hc : x.id = mid
      · simp [hc, hu x]
      · simp [hc, hx]
    · intro x hx
      rcases List.mem_singleton.1 (by simpa using hx) with rfl
      simp [hm, hu m]

/-- The status-completing patch is the plain record update. -/
theorem completeFun_eq (mid : Nat) :
    (fun (m : Message) => if m.id = mid then
        applyUpdate (.fields { status := some MsgStatus.complete }) m else m) =
      (fun m => if m.id = mid then { m with status := MsgStatus.complete } else m) := by
  funext m
  split <;> rfl

/-! ### Characterization of the stream event handlers -/

/-- Effect of a `[DONE]` event on an open stream: connection discarded,
loading cleared, pending entry removed, the target message completed in
place, everything else untouched. -/
theorem esOnMessage_done_spec (st : CoordState) (c : String) (conn : StreamConn)
    (hes : st.eventSources c = some conn) :
    (esOnMessage st c "[DONE]").messagesMap c = (st.messagesMap c).map
        (fun m => if m.id = conn.messageId then { m with status := MsgStatus.complete } else m) ∧
    (∀ k, k ≠ c → (esOnMessage st c "[DONE]").messagesMap k = st.messagesMap k) ∧
    (esOnMessage st c "[DONE]").pendingMessages c = none ∧
    (∀ k, k ≠ c → (esOnMessage st c "[DONE]").pendingMessages k = st.pendingMessages k) ∧
    (esOnMessage st c "[DONE]").eventSources c = none ∧
    (∀ k, k ≠ c → (esOnMessage st c "[DONE]").eventSources k = st.eventSources k) ∧
    (esOnMessage st c "[DONE]").loadingChats c = false ∧
    (∀ k, k ≠ c → (esOnMessage st c "[DONE]").loadingChats k = st.loadingChats k) := by
  have hfun := completeFun_eq conn.messageId
  unfold esOnMessage
  simp only [hes]
  rw [if_pos trivial]
  refine ⟨?_, ?_, ?_, ?_, ?_, ?_, ?_, ?_⟩
  · split <;> split <;> simp [updateMessageInChat, mapSet, hfun]
  · intro k hk
    split <;> split <;> simp [updateMessageInChat, mapSet, hk]
  · split <;> split <;> simp [mapSet]
  · intro k hk
    split <;> split <;> simp [mapSet, hk]
  · split <;> split <;> simp [mapSet]
  · intro k hk
    split <;> split <;> simp [mapSet, hk]
  · split <;> split <;> simp [mapSet]
  · intro k hk
    split <;> split <;> simp [mapSet, hk]

/-- Effect of a non-sentinel fragment on an open stream: the fragment,
with `[NEWLINE]` rewritten, is appended to the target message's content;
nothing else changes (apart from possibly flipping the response-started
flag). -/
theorem esOnMessage_frag_spec (st : CoordState) (c : String) (conn : StreamConn)
    (d : String) (hes : st.eventSources c = some conn) (hd : d ≠ "[DONE]") :
    (esOnMessage st c d).messagesMap c = (st.messagesMap c).map
        (fun m => if m.id = conn.messageId then
          { m with content := m.content ++ replaceNewlines d } else m) ∧
    (∀ k, k ≠ c → (esOnMessage st c d).messagesMap k = st.messagesMap k) ∧
    (esOnMessage st c d).pendingMessages = st.pendingMessages ∧
    (esOnMessage st c d).eventSources = st.eventSources ∧
    (esOnMessage st c d).loadingChats = st.loadingChats := by
  have hfun : (fun (m : Message) =>
        if m.id = conn.messageId then
          applyUpdate (.withFn fun prev => prev ++ replaceNewlines d) m else m) =
      (fun m => if m.id = conn.messageId then
          { m with content := m.content ++ replaceNewlines d } else m) := by
    funext m
    split <;> rfl
  unfold esOnMessage
  simp only [hes, if_neg hd]
  refine ⟨?_, ?_, ?_, ?_, ?_⟩
  · split <;> simp [updateMessageInChat, mapSet, hfun]
  · intro k hk
    split <;> simp [updateMessageInChat, mapSet, hk]
  · split <;> simp [updateMessageInChat]
  · split <;> simp [updateMessageInChat]
  · split <;> simp [updateMessageInChat]

/-- Effect of a transport error on an open stream: the connection is
discarded and loading cleared; when the pending entry still points at the
stream's message, that message is finalized with a completing patch and the
entry removed, otherwise messages and pending entries are untouched. -/
theorem esOnError_spec (st : CoordState) (c : String) (conn : StreamConn)
    (hes : st.eventSources c = some conn) :
    (∀ k, k ≠ c → (esOnError st c).messagesMap k = st.messagesMap k) ∧
    (∀ k, k ≠ c → (esOnError st c).pendingMessages k = st.pendingMessages k) ∧
    (∀ k, k ≠ c → (esOnError st c).eventSources k = st.eventSources k) ∧
    (esOnError st c).eventSources c = none ∧
    (esOnError st c).loadingChats c = false ∧
    (st.pendingMessages c = some conn.messageId →
       (esOnError st c).pendingMessages c = none ∧
       ∃ u, (∀ m, (applyUpdate u m).status = MsgStatus.complete) ∧
         (esOnError st c).messagesMap c = (st.messagesMap c).map
           (fun m => if m.id = conn.messageId then applyUpdate u m else m)) ∧
    (st.pendingMessages c ≠ some conn.messageId →
       (esOnError st c).pendingMessages c = st.pendingMessages c ∧
       (esOnError st c).messagesMap c = st.messagesMap c) := by
  unfold esOnError
  simp only [hes]
  by_cases hp : st.pendingMessages c = some conn.messageId
  · rw [if_pos hp]
    refine ⟨?_, ?_, ?_, ?_, ?_, ?_, ?_⟩
    · intro k hk
      split <;> simp [updateMessageInChat, mapSet, hk]
    · intro k hk
      split <;> simp [updateMessageInChat, mapSet, hk]
    · intro k hk
      split <;> simp [updateMessageInChat, mapSet, hk]
    · split <;> simp [updateMessageInChat, mapSet]
    · split <;> simp [updateMessageInChat, mapSet]
    · intro _
      constructor
      · split <;> simp [updateMessageInChat, mapSet]
      · have hu : ∀ m, (applyUpdate (.fields { content := some (errMessageFor (st.messagesMap c) conn.messageId), status := some .complete }) m).status = MsgStatus.complete := fun m => rfl
        refine Exists.intro _ (And.intro hu ?_)
        split <;> simp [updateMessageInChat, mapSet]
    · intro hcon
      exact absurd hp hcon
  · rw [if_neg hp]
    refine ⟨?_, ?_, ?_, ?_, ?_, ?_, ?_⟩
    · intro k hk
      split <;> simp [mapSet, hk]
    · intro k hk
      split <;> simp [mapSet, hk]
    · intro k hk
      split <;> simp [mapSet, hk]
    · split <;> simp [mapSet]
    · split <;> simp [mapSet]
    · intro hcon
      exact absurd hcon hp
    · intro _
      constructor
      · split <;> simp [mapSet]
      · split <;> simp [mapSet]

/-- A transport error preserves the streaming invariant. -/
theorem inv_esOnError (st : CoordState) (c : String) (h : Inv st) :
    Inv (esOnError st c) := by
  cases hes : st.eventSources c with
  | none =>
      unfold esOnError
      simp only [hes]
      exact h
  | some conn =>
    obtain ⟨hmo, hpo, heo, hec, _, hyes, hno⟩ := esOnError_spec st c conn hes
    intro k
    by_cases hk : k = c
    · subst hk
      by_cases hp : st.pendingMessages k = some conn.messageId
      · obtain ⟨hp2, u, hu, hmm⟩ := hyes hp
        constructor
        · rw [hmm, hp2]
          exact Or.inl (okList_complete_noStreaming hu (hp ▸ (h k).1))
        · intro conn2 hc2
          rw [hec] at hc2
          cases hc2
      · obtain ⟨hp2, hmm⟩ := hno hp
        constructor
        · rw [hmm, hp2]
          exact (h k).1
        · intro conn2 hc2
          rw [hec] at hc2
          cases hc2
    · constructor
      · rw [hmo k hk, hpo k hk]
        exact (h k).1
      · intro conn2 hc2
        rw [heo k hk] at hc2
        rw [hpo k hk]
        exact (h k).2 conn2 hc2

/-! ### Characterization of stopQuery -/

/-- Effect of a stop whose cancellation POST succeeds: the POST is issued,
the stream handle is discarded, a still-streaming last message is completed
in place, pending entry, loading flag, upload status and response-started
flag are cleared; other conversations are untouched. -/
theorem stopQuery_ok_spec (st : CoordState) (env : StopEnv) (c : String)
    (htok : tokenPresent env.user = true) (hok : env.stopOk = true) :
    (stopQuery st env c).2 = [.stopReq c] ∧
    (stopQuery st env c).1.eventSources c = none ∧
    (∀ k, k ≠ c → (stopQuery st env c).1.eventSources k = st.eventSources k) ∧
    (stopQuery st env c).1.pendingMessages c = none ∧
    (∀ k, k ≠ c → (stopQuery st env c).1.pendingMessages k = st.pendingMessages k) ∧
    (stopQuery st env c).1.loadingChats c = false ∧
    (∀ k, k ≠ c → (stopQuery st env c).1.loadingChats k = st.loadingChats k) ∧
    (stopQuery st env c).1.uploadStatus = { isUploading := false, isIndexing := false } ∧
    (stopQuery st env c).1.hasStartedResponse = false ∧
    (∀ k, k ≠ c → (stopQuery st env c).1.messagesMap k = st.messagesMap k) ∧
    (stopQuery st env c).1.messagesMap c =
      (match (st.messagesMap c).getLast? with
       | some lm =>
           if lm.status = MsgStatus.streaming then
             (st.messagesMap c).map
               (fun m => if m.id = lm.id then { m with status := MsgStatus.complete } else m)
           else st.messagesMap c
       | none => st.messagesMap c) := by
  unfold stopQuery
  rw [if_neg (by simp [htok]), if_pos hok]
  cases hE : st.eventSources c with
  | some conn =>
    simp only [hE]
    cases hL : (st.messagesMap c).getLast? with
    | some lm =>
      simp only [hL]
      by_cases hS : lm.status = MsgStatus.streaming
      · rw [if_pos hS]
        refine ⟨?_, ?_, ?_, ?_, ?_, ?_, ?_, ?_, ?_, ?_, ?_⟩ <;>
          try intro k hk
        all_goals simp_all [updateMessageInChat, mapSet, completeFun_eq]
      · rw [if_neg hS]
        refine ⟨?_, ?_, ?_, ?_, ?_, ?_, ?_, ?_, ?_, ?_, ?_⟩ <;>
          try intro k hk
        all_goals simp_all [mapSet]
    | none =>
      simp only [hL]
      refine ⟨?_, ?_, ?_, ?_, ?_, ?_, ?_, ?_, ?_, ?_, ?_⟩ <;>
        try intro k hk
      all_goals simp_all [mapSet]
  | none =>
    simp only [hE]
    cases hL : (st.messagesMap c).getLast? with
    | some lm =>
      simp only [hL]
      by_cases hS : lm.status = MsgStatus.streaming
      · rw [if_pos hS]
        refine ⟨?_, ?_, ?_, ?_, ?_, ?_, ?_, ?_, ?_, ?_, ?_⟩ <;>
          try intro k hk
        all_goals simp_all [updateMessageInChat, mapSet, completeFun_eq]
      · rw [if_neg hS]
        refine ⟨?_, ?_, ?_, ?_, ?_, ?_, ?_, ?_, ?_, ?_, ?_⟩ <;>
          try intro k hk
        all_goals simp_all [mapSet]
    | none =>
      simp only [hL]
      refine ⟨?_, ?_, ?_, ?_, ?_, ?_, ?_, ?_, ?_, ?_, ?_⟩ <;>
        try intro k hk
      all_goals simp_all [mapSet]

theorem inv_esOnMessage (st : CoordState) (c : String) (d : String)
    (h : Inv st) : Inv (esOnMessage st c d) := by
  cases hes : st.eventSources c with
  | none =>
      unfold esOnMessage
      simp only [hes]
      exact h
  | some conn =>
    by_cases hd : d = "[DONE]"
    · subst hd
      obtain ⟨hmm, hmo, hpc, hpo, hec, heo, _, _⟩ := esOnMessage_done_spec st c conn hes
      intro k
      by_cases hk : k = c
      · subst hk
        constructor
        · rw [hmm, hpc]
          refine Or.inl ?_
          have hpend : st.pendingMessages k = some conn.messageId := (h k).2 conn hes
          have hns := okList_complete_noStreaming
            (u := .fields { status := some .complete })
            (l := st.messagesMap k) (fun m => rfl)
            (hpend ▸ (h k).1)
          rw [← completeFun_eq conn.messageId]
          exact hns
        · intro conn2 hc2
          rw [hec] at hc2
          cases hc2
      · constructor
        · rw [hmo k hk, hpo k hk]
          exact (h k).1
        · intro conn2 hc2
          rw [heo k hk] at hc2
          rw [hpo k hk]
          exact (h k).2 conn2 hc2
    · obtain ⟨hmm, hmo, hp, he, _⟩ := esOnMessage_frag_spec st c conn d hes hd
      intro k
      by_cases hk : k = c
      · subst hk
        constructor
        · rw [hmm, hp]
          exact okList_map_pres _ (fun m => by split <;> rfl) (fun m => by split <;> rfl) (h k).1
        · intro conn2 hc2
          rw [he] at hc2
          rw [hp]
          exact (h k).2 conn2 hc2
      · constructor
        · rw [hmo k hk, hp]
          exact (h k).1
        · intro conn2 hc2
          rw [he] at hc2
          rw [hp]
          exact (h k).2 conn2 hc2

/-- Effect of a stop whose cancellation POST fails (the catch block of
`stopQuery`): the POST was issued; the pending entry, loading flag and
upload status are cleared, but the stream handle is not closed, no message
is touched, and the response-started flag keeps its value. -/
theorem stopQuery_fail_spec (st : CoordState) (env : StopEnv) (c : String)
    (htok : tokenPresent env.user = true) (hfail : env.stopOk = false) :
    (stopQuery st env c).2 = [.stopReq c] ∧
    (stopQuery st env c).1.messagesMap = st.messagesMap ∧
    (stopQuery st env c).1.eventSources = st.eventSources ∧
    (stopQuery st env c).1.pendingMessages c = none ∧
    (∀ k, k ≠ c → (stopQuery st env c).1.pendingMessages k = st.pendingMessages k) ∧
    (stopQuery st env c).1.loadingChats c = false ∧
    (∀ k, k ≠ c → (stopQuery st env c).1.loadingChats k = st.loadingChats k) ∧
    (stopQuery st env c).1.uploadStatus = { isUploading := false, isIndexing := false } ∧
    (stopQuery st env c).1.hasStartedResponse = st.hasStartedResponse ∧
    (stopQuery st env c).1.newChatIds = st.newChatIds ∧
    (stopQuery st env c).1.activeChat = st.activeChat := by
  unfold stopQuery
  rw [if_neg (by simp [htok]), if_neg (by simp [hfail])]
  refine ⟨rfl, rfl, rfl, ?_, ?_, ?_, ?_, rfl, rfl, rfl, rfl⟩
  · simp [mapSet]
  · intro k hk
    simp [mapSet, hk]
  · simp [mapSet]
  · intro k hk
    simp [mapSet, hk]

/-- A stop whose cancellation POST succeeds preserves the streaming
invariant (a failing one does not, which is the subject of the
corresponding correction). -/
theorem inv_stopQuery_ok (st : CoordState) (env : StopEnv) (c : String)
    (hok : env.stopOk = true) (h : Inv st) : Inv (stopQuery st env c).1 := by
  by_cases htok : tokenPresent env.user = true
  · obtain ⟨_, hec, heo, hpc, hpo, _, _, _, _, hmo, hmc⟩ := stopQuery_ok_spec st env c htok hok
    intro k
    by_cases hk : k = c
    · subst hk
      constructor
      · rw [hmc, hpc]
        refine Or.inl ?_
        cases hL : (st.messagesMap k).getLast? with
        | none =>
            simp only [hL]
            intro m hm
            rw [List.getLast?_eq_none_iff.1 hL] at hm
            cases hm
        | some lm =>
            simp only [hL]
            by_cases hS : lm.status = MsgStatus.streaming
            · rw [if_pos hS]
              have hmem : lm ∈ st.messagesMap k := by
                have hdl := List.dropLast_append_getLast? lm (by rw [hL]; rfl)
                rw [← hdl]
                exact List.mem_append_right _ (List.mem_singleton.2 rfl)
              have hok2 : okList (some lm.id) (st.messagesMap k) := by
                rcases (h k).1 with hns | ⟨pre, m, hdec, hstr, hpre, hp⟩
                · exfalso
                  exact hns lm hmem hS
                · have hm : m = lm := by
                    rw [hdec] at hL
                    rw [List.getLast?_concat] at hL
                    exact (Option.some.inj hL)
                  exact Or.inr ⟨pre, m, hdec, hstr, hpre, by rw [hm]⟩
              have := okList_complete_noStreaming
                (u := .fields { status := some .complete }) (fun m => rfl) hok2
              rw [← completeFun_eq lm.id]
              exact this
            · rw [if_neg hS]
              rcases (h k).1 with hns | ⟨pre, m, hdec, hstr, hpre, hp⟩
              · exact hns
              · exfalso
                have hm : m = lm := by
                  rw [hdec] at hL
                  rw [List.getLast?_concat] at hL
                  exact (Option.some.inj hL)
                exact hS (hm ▸ hstr)
      · intro conn2 hc2
        rw [hec] at hc2
        cases hc2
    · constructor
      · rw [hmo k hk, hpo k hk]
        exact (h k).1
      · intro conn2 hc2
        rw [heo k hk] at hc2
        rw [hpo k hk]
        exact (h k).2 conn2 hc2
  · have htok2 : tokenPresent env.user = false := by
      cases hq : tokenPresent env.user
      · rfl
      · exact absurd hq htok
    unfold stopQuery
    rw [if_pos (by simp [htok2])]
    exact h

/-- Effect of clearing the active conversation on the invariant-relevant
fields. -/
theorem clearMessages_spec (st : CoordState) (c : String)
    (hac : st.activeChat = some c) :
    (clearMessages st).messagesMap c = [] ∧
    (∀ k, k ≠ c → (clearMessages st).messagesMap k = st.messagesMap k) ∧
    (clearMessages st).pendingMessages c = none ∧
    (∀ k, k ≠ c → (clearMessages st).pendingMessages k = st.pendingMessages k) ∧
    (clearMessages st).eventSources c = none ∧
    (∀ k, k ≠ c → (clearMessages st).eventSources k = st.eventSources k) := by
  unfold clearMessages
  simp only [hac]
  cases hE : st.eventSources c with
  | some conn =>
      simp only [hE]
      refine ⟨?_, ?_, ?_, ?_, ?_, ?_⟩ <;> try intro k hk
      all_goals simp_all [mapSet]
  | none =>
      simp only [hE]
      refine ⟨?_, ?_, ?_, ?_, ?_, ?_⟩ <;> try intro k hk
      all_goals simp_all [mapSet]

/-- Transport of the per-conversation invariant along pointwise equal
states. -/
theorem InvAt_of_eq {st st2 : CoordState} {k : String}
    (hm : st2.messagesMap k = st.messagesMap k)
    (hp : st2.pendingMessages k = st.pendingMessages k)
    (he : st2.eventSources k = st.eventSources k)
    (h : InvAt st k) : InvAt st2 k := by
  constructor
  · rw [hm, hp]
    exact h.1
  · intro conn hc
    rw [he] at hc
    rw [hp]
    exact h.2 conn hc

/-- Clearing the active conversation preserves the streaming invariant. -/
theorem inv_clearMessages (st : CoordState) (h : Inv st) :
    Inv (clearMessages st) := by
  cases hac : st.activeChat with
  | none =>
      unfold clearMessages
      simp only [hac]
      exact h
  | some c =>
    obtain ⟨hmc, hmo, hpc, hpo, hec, heo⟩ := clearMessages_spec st c hac
    intro k
    by_cases hk : k = c
    · subst hk
      constructor
      · rw [hmc]
        exact Or.inl noStreaming_nil
      · intro conn2 hc2
        rw [hec] at hc2
        cases hc2
    · constructor
      · rw [hmo k hk, hpo k hk]
        exact (h k).1
      · intro conn2 hc2
        rw [heo k hk] at hc2
        rw [hpo k hk]
        exact (h k).2 conn2 hc2

/-! ### Effects of the submission phases -/

/-- Pointwise effect of materializing the image-attachment user messages
(the loop of useMessages.ts lines 674-682): some already-complete user
messages holding image descriptors are appended to the target chat, and
nothing else changes. -/
theorem imageFold_spec (fs : List FileMeta) (st : CoordState) (tc : String) :
    ∃ imgs : List Message,
      (fs.foldl (fun s f => (createImageMessageFromFile s f tc).1) st).messagesMap tc
          = st.messagesMap tc ++ imgs ∧
      (∀ m ∈ imgs, m.role = Role.user ∧ m.status = MsgStatus.complete ∧
        ∃ f ∈ fs, m.content = imageJson f) ∧
      (∀ k, k ≠ tc →
        (fs.foldl (fun s f => (createImageMessageFromFile s f tc).1) st).messagesMap k
          = st.messagesMap k) ∧
      (fs.foldl (fun s f => (createImageMessageFromFile s f tc).1) st).pendingMessages
          = st.pendingMessages ∧
      (fs.foldl (fun s f => (createImageMessageFromFile s f tc).1) st).eventSources
          = st.eventSources ∧
      (fs.foldl (fun s f => (createImageMessageFromFile s f tc).1) st).loadingChats
          = st.loadingChats ∧
      (fs.foldl (fun s f => (createImageMessageFromFile s f tc).1) st).toolStatesMap
          = st.toolStatesMap ∧
      (fs.foldl (fun s f => (createImageMessageFromFile s f tc).1) st).uploadStatus
          = st.uploadStatus := by
  induction fs generalizing st with
  | nil =>
      exact ⟨[], by simp, by simp, fun k _ => rfl, rfl, rfl, rfl, rfl, rfl⟩
  | cons f fs ih =>
      have hstep : ∃ base : List Message,
          (createImageMessageFromFile st f tc).1.messagesMap tc
              = st.messagesMap tc ++ base ∧
          (∀ m ∈ base, m.role = Role.user ∧ m.status = MsgStatus.complete ∧
            m.content = imageJson f) ∧
          (∀ k, k ≠ tc →
            (createImageMessageFromFile st f tc).1.messagesMap k = st.messagesMap k) ∧
          (createImageMessageFromFile st f tc).1.pendingMessages = st.pendingMessages ∧
          (createImageMessageFromFile st f tc).1.eventSources = st.eventSources ∧
          (createImageMessageFromFile st f tc).1.loadingChats = st.loadingChats ∧
          (createImageMessageFromFile st f tc).1.toolStatesMap = st.toolStatesMap ∧
          (createImageMessageFromFile st f tc).1.uploadStatus = st.uploadStatus := by
        unfold createImageMessageFromFile
        split
        · exact ⟨[], by simp, by simp, fun k _ => rfl, rfl, rfl, rfl, rfl, rfl⟩
        · split
          · exact ⟨[], by simp, by simp, fun k _ => rfl, rfl, rfl, rfl, rfl, rfl⟩
          · refine ⟨[{ id := st.nextId, role := .user, content := imageJson f, status := .complete, imageResult := none }], ?_, ?_, ?_, rfl, rfl, rfl, rfl, rfl⟩
            · simp [addMessageToChat, mapSet]
            · intro m hm
              rw [List.mem_singleton.1 hm]
              exact ⟨rfl, rfl, rfl⟩
            · intro k hk
              simp [addMessageToChat, mapSet, hk]
      obtain ⟨base, hb1, hb2, hb3, hb4, hb5, hb6, hb7, hb8⟩ := hstep
      obtain ⟨imgs, hi1, hi2, hi3, hi4, hi5, hi6, hi7, hi8⟩ :=
        ih ((createImageMessageFromFile st f tc).1)
      refine ⟨base ++ imgs, ?_, ?_, ?_, ?_, ?_, ?_, ?_, ?_⟩
      · rw [List.foldl_cons, hi1, hb1, List.append_assoc]
      · intro m hm
        rcases List.mem_append.1 hm with h | h
        · obtain ⟨h1, h2, h3⟩ := hb2 m h
          exact ⟨h1, h2, f, List.mem_cons_self f fs, h3⟩
        · obtain ⟨h1, h2, g, hg, h3⟩ := hi2 m h
          exact ⟨h1, h2, g, List.mem_cons_of_mem f hg, h3⟩
      · intro k hk
        rw [List.foldl_cons, hi3 k hk, hb3 k hk]
      · rw [List.foldl_cons, hi4, hb4]
      · rw [List.foldl_cons, hi5, hb5]
      · rw [List.foldl_cons, hi6, hb6]
      · rw [List.foldl_cons, hi7, hb7]
      · rw [List.foldl_cons, hi8, hb8]

/-- Frame of the upload sub-protocol: it only ever touches the global
upload status (every other state field is returned unchanged), and its
request trace and result are determined by the environment and the chat's
tool state. -/
theorem uploadFilesToChat_spec (st : CoordState) (env : SubmitEnv) (c : String)
    (files : List FileMeta) :
    (uploadFilesToChat st env c files).state.messagesMap = st.messagesMap ∧
    (uploadFilesToChat st env c files).state.pendingMessages = st.pendingMessages ∧
    (uploadFilesToChat st env c files).state.eventSources = st.eventSources ∧
    (uploadFilesToChat st env c files).state.loadingChats = st.loadingChats ∧
    (uploadFilesToChat st env c files).state.toolStatesMap = st.toolStatesMap ∧
    (uploadFilesToChat st env c files).state.activeChat = st.activeChat ∧
    (uploadFilesToChat st env c files).state.hasStartedResponse = st.hasStartedResponse ∧
    (uploadFilesToChat st env c files).state.newChatIds = st.newChatIds ∧
    (uploadFilesToChat st env c files).state.nextId = st.nextId ∧
    (tokenPresent env.user = false →
      (uploadFilesToChat st env c files).reqs = [] ∧
      (uploadFilesToChat st env c files).result = none) ∧
    (tokenPresent env.user = true →
      (uploadFilesToChat st env c files).reqs =
        [.uploadReq c (uploadFileTypeFor st c) files.length] ++
          (if env.uploadOk then
            [.updateFilesCallback c env.uploadDocFiles env.uploadCodeFiles] ++
              (if uploadFileTypeFor st c = "doc" then [.indexReq c] else [])
           else []) ∧
      (uploadFilesToChat st env c files).result =
        (if env.uploadOk ∧ (uploadFileTypeFor st c = "doc" → env.indexOk) then
          some (env.uploadDocFiles, env.uploadCodeFiles) else none)) := by
  unfold uploadFilesToChat uploadFileTypeFor
  by_cases htok : tokenPresent env.user = true
  · rw [if_neg (by simp [htok])]
    by_cases hup : env.uploadOk = true
    · rw [if_neg (by simp [hup])]
      by_cases hdoc : (if ((st.toolStatesMap c).getD
          ((st.toolStatesMap "new").getD defaultToolState)).isCodeAnalysisEnabled
          then "code" else "doc") = "doc"
      · rw [if_pos hdoc]
        by_cases hidx : env.indexOk = true
        · rw [if_neg (by simp [hidx])]
          refine ⟨rfl, rfl, rfl, rfl, rfl, rfl, rfl, rfl, rfl, ?_, ?_⟩
          · intro hcon
            rw [hcon] at htok
            cases htok
          · intro _
            constructor
            · simp [hup, hdoc]
            · simp [hup, hdoc, hidx]
        · rw [if_pos (by simpa using hidx)]
          refine ⟨rfl, rfl, rfl, rfl, rfl, rfl, rfl, rfl, rfl, ?_, ?_⟩
          · intro hcon
            rw [hcon] at htok
            cases htok
          · intro _
            constructor
            · simp [hup, hdoc]
            · simp [hup, hdoc, hidx]
      · rw [if_neg hdoc]
        refine ⟨rfl, rfl, rfl, rfl, rfl, rfl, rfl, rfl, rfl, ?_, ?_⟩
        · intro hcon
          rw [hcon] at htok
          cases htok
        · intro _
          constructor
          · simp [hup, hdoc]
          · simp [hup, hdoc]
    · rw [if_pos (by simpa using hup)]
      refine ⟨rfl, rfl, rfl, rfl, rfl, rfl, rfl, rfl, rfl, ?_, ?_⟩
      · intro hcon
        rw [hcon] at htok
        cases htok
      · intro _
        constructor
        · simp [hup]
        · simp [hup]
  · have htok2 : tokenPresent env.user = false := by
      cases hq : tokenPresent env.user
      · rfl
      · exact absurd hq htok
    rw [if_pos (by simp [htok2])]
    exact ⟨rfl, rfl, rfl, rfl, rfl, rfl, rfl, rfl, rfl, fun _ => ⟨rfl, rfl⟩,
      fun hcon => absurd hcon htok⟩

@[simp] theorem createQueryRequest_fst_messagesMap (st : CoordState) (env : SubmitEnv)
    (um : String) (mid : Nat) (c : String) (imgs : List FileMeta)
    (kb : Option String) (keep : Bool) :
    (createQueryRequest st env um mid c imgs kb keep).1.messagesMap = st.messagesMap := rfl

@[simp] theorem createQueryRequest_fst_pendingMessages (st : CoordState) (env : SubmitEnv)
    (um : String) (mid : Nat) (c : String) (imgs : List FileMeta)
    (kb : Option String) (keep : Bool) :
    (createQueryRequest st env um mid c imgs kb keep).1.pendingMessages =
      st.pendingMessages := rfl

@[simp] theorem createQueryRequest_fst_loadingChats (st : CoordState) (env : SubmitEnv)
    (um : String) (mid : Nat) (c : String) (imgs : List FileMeta)
    (kb : Option String) (keep : Bool) :
    (createQueryRequest st env um mid c imgs kb keep).1.loadingChats =
      st.loadingChats := rfl

theorem createQueryRequest_es_self (st : CoordState) (env : SubmitEnv)
    (um : String) (mid : Nat) (c : String) (imgs : List FileMeta)
    (kb : Option String) (keep : Bool) :
    ∃ u, (createQueryRequest st env um mid c imgs kb keep).1.eventSources c =
      some { url := u, messageId := mid } := by
  unfold createQueryRequest
  exact ⟨_, mapSet_same _ _ _⟩

theorem createQueryRequest_es_ne (st : CoordState) (env : SubmitEnv)
    (um : String) (mid : Nat) (c k : String) (imgs : List FileMeta)
    (kb : Option String) (keep : Bool) (h : k ≠ c) :
    (createQueryRequest st env um mid c imgs kb keep).1.eventSources k =
      st.eventSources k := by
  unfold createQueryRequest
  simp [h]

/-- Phase three of a submission preserves the streaming invariant, given
that the target chat holds exactly one trailing streaming assistant message
with the handed-over id, no pending entry yet, and no open stream. -/
theorem inv_submitPhase3 (st : CoordState) (env : SubmitEnv) (tc : String)
    (um : String) (imgs : List FileMeta) (mode : Bool)
    (ko : Option KnowledgeBaseOptions) (keep : Bool) (amId : Nat)
    (r : List NetRequest)
    (hother : ∀ k, k ≠ tc → InvAt st k)
    (hpend : st.pendingMessages tc = none)
    (hes : st.eventSources tc = none)
    (pre : List Message) (m : Message)
    (hdec : st.messagesMap tc = pre ++ [m]) (hpre : noStreaming pre)
    (hstr : m.status = MsgStatus.streaming) (hmid : m.id = amId) :
    Inv (submitPhase3 st env tc um imgs mode ko keep amId r).state := by
  have hok : okList (some amId) (st.messagesMap tc) :=
    Or.inr ⟨pre, m, hdec, hstr, hpre, by rw [hmid]⟩
  have hmap : ∀ (u : MsgUpdate), (∀ x, (applyUpdate u x).status = x.status) →
      (∀ x, (applyUpdate u x).id = x.id) →
      okList (some amId) ((st.messagesMap tc).map
        (fun x => if x.id = amId then applyUpdate u x else x)) := by
    intro u hs hi
    refine okList_map_pres _ (fun x => ?_) (fun x => ?_) hok
    · by_cases hx : x.id = amId <;> simp [hx, hs x]
    · by_cases hx : x.id = amId <;> simp [hx, hi x]
  unfold submitPhase3
  split
  · split
    · split
      · intro k
        by_cases hk : k = tc
        · subst hk
          refine ⟨?_, ?_⟩
          · simp only [updateMessageInChat_pendingMessages,
              updateMessageInChat_messagesMap_self, mapSet_same]
            exact hmap _ (fun x => rfl) (fun x => rfl)
          · intro conn hc
            simp only [updateMessageInChat_eventSources] at hc
            rw [hes] at hc
            cases hc
        · refine InvAt_of_eq ?_ ?_ ?_ (hother k hk) <;> simp [mapSet, hk]
      · intro k
        by_cases hk : k = tc
        · subst hk
          refine ⟨?_, ?_⟩
          · simp only [updateMessageInChat_pendingMessages,
              updateMessageInChat_messagesMap_self, mapSet_same]
            exact hmap _ (fun x => rfl) (fun x => rfl)
          · intro conn hc
            simp only [updateMessageInChat_eventSources] at hc
            rw [hes] at hc
            cases hc
        · refine InvAt_of_eq ?_ ?_ ?_ (hother k hk) <;> simp [mapSet, hk]
    · intro k
      by_cases hk : k = tc
      · subst hk
        refine ⟨?_, ?_⟩
        · simp only [createQueryRequest_fst_messagesMap,
            createQueryRequest_fst_pendingMessages, mapSet_same]
          exact hok
        · intro conn hc
          obtain ⟨u, hu⟩ := createQueryRequest_es_self
            { st with pendingMessages := mapSet st.pendingMessages k (some amId) }
            env um amId k imgs _ keep
          rw [hu] at hc
          cases hc
          simp only [createQueryRequest_fst_pendingMessages, mapSet_same]
      · refine InvAt_of_eq ?_ ?_ ?_ (hother k hk)
        · simp [hk]
        · simp [mapSet, hk]
        · exact createQueryRequest_es_ne _ env um amId tc k imgs _ keep hk
  · intro k
    by_cases hk : k = tc
    · subst hk
      refine ⟨?_, ?_⟩
      · simp only [updateMessageInChat_pendingMessages,
          updateMessageInChat_messagesMap_self, hpend]
        exact Or.inl (okList_complete_noStreaming (fun x => rfl) hok)
      · intro conn hc
        simp only [updateMessageInChat_eventSources] at hc
        rw [hes] at hc
        cases hc
    · refine InvAt_of_eq ?_ ?_ ?_ (hother k hk) <;> simp [mapSet, hk]

/-- A status- and id-preserving patch keeps the trailing-streaming shape of
a message list. -/
theorem map_patch_shape {l pre : List Message} {m : Message} {amId : Nat}
    (u : MsgUpdate) (hs : ∀ x, (applyUpdate u x).status = x.status)
    (hi : ∀ x, (applyUpdate u x).id = x.id)
    (hdec : l = pre ++ [m]) (hpre : noStreaming pre)
    (hstr : m.status = MsgStatus.streaming) (hmid : m.id = amId) :
    ∃ pre2 m2, l.map (fun x => if x.id = amId then applyUpdate u x else x) = pre2 ++ [m2] ∧
      noStreaming pre2 ∧ m2.status = MsgStatus.streaming ∧ m2.id = amId := by
  subst hdec
  refine ⟨pre.map (fun x => if x.id = amId then applyUpdate u x else x),
    (fun x => if x.id = amId then applyUpdate u x else x) m, ?_, ?_, ?_, ?_⟩
  · rw [List.map_append]
    rfl
  · refine noStreaming_map _ (fun x hx => ?_) hpre
    by_cases hxx : x.id = amId <;> simp [hxx, hs x, hx]
  · by_cases hm : m.id = amId <;> simp [hm, hs m, hstr]
  · by_cases hm : m.id = amId <;> simp [hm, hi m, hmid]

/-- The upload block preserves the streaming invariant under the same shape
hypotheses as phase three. -/
theorem inv_submitUploadPhase (st : CoordState) (env : SubmitEnv) (tc : String)
    (um : String) (imageFiles nonImageFiles : List FileMeta) (mode : Bool)
    (ko : Option KnowledgeBaseOptions) (keep : Bool) (amId : Nat)
    (r : List NetRequest)
    (hother : ∀ k, k ≠ tc → InvAt st k)
    (hpend : st.pendingMessages tc = none)
    (hes : st.eventSources tc = none)
    {pre : List Message} {m : Message}
    (hdec : st.messagesMap tc = pre ++ [m]) (hpre : noStreaming pre)
    (hstr : m.status = MsgStatus.streaming) (hmid : m.id = amId) :
    Inv (submitUploadPhase st env tc um imageFiles nonImageFiles mode ko keep amId r).state := by
  obtain ⟨hu1, hu2, hu3, hu4, hu5, hu6, hu7, hu8, hu9, _, _⟩ :=
    uploadFilesToChat_spec
      (updateMessageInChat st tc amId uploadFlagPatch)
      env tc nonImageFiles
  obtain ⟨pre1, m1, hdec1, hpre1, hstr1, hmid1⟩ :=
    map_patch_shape uploadFlagPatch
      (fun x => rfl) (fun x => rfl) hdec hpre hstr hmid
  have hok1 : okList (some amId)
      ((uploadFilesToChat
        (updateMessageInChat st tc amId uploadFlagPatch)
        env tc nonImageFiles).state.messagesMap tc) := by
    rw [hu1]
    simp only [updateMessageInChat_messagesMap_self]
    rw [hdec1]
    exact Or.inr ⟨pre1, m1, rfl, hstr1, hpre1, by rw [hmid1]⟩
  simp only [submitUploadPhase]
  split
  · -- upload failed: error finalization
    intro k
    by_cases hk : k = tc
    · subst hk
      refine ⟨?_, ?_⟩
      · show okList _ _
        simp only [updateMessageInChat_pendingMessages, updateMessageInChat_messagesMap_self,
          mapSet_same]
        exact Or.inl (okList_complete_noStreaming (fun x => rfl) hok1)
      · intro conn hc
        simp only [updateMessageInChat_eventSources] at hc
        rw [hu3] at hc
        simp only [updateMessageInChat_eventSources] at hc
        rw [hes] at hc
        cases hc
    · refine InvAt_of_eq ?_ ?_ ?_ (hother k hk)
      · simp only [updateMessageInChat_messagesMap_ne _ _ _ _ _ hk]
        rw [congrFun hu1 k]
        simp [hk]
      · simp only [mapSet_ne _ _ _ _ hk, updateMessageInChat_pendingMessages]
        rw [congrFun hu2 k]
        rfl
      · simp only [updateMessageInChat_eventSources]
        rw [congrFun hu3 k]
        rfl
  · -- upload succeeded: continue with phase three
    obtain ⟨pre2, m2, hdec2, hpre2, hstr2, hmid2⟩ :=
      map_patch_shape uploadFlagOffPatch
        (fun x => rfl) (fun x => rfl)
        (l := (uploadFilesToChat
          (updateMessageInChat st tc amId uploadFlagPatch)
          env tc nonImageFiles).state.messagesMap tc)
        (m := m1)
        (by rw [hu1]; simp only [updateMessageInChat_messagesMap_self]; exact hdec1)
        hpre1 hstr1 hmid1
    refine inv_submitPhase3 _ env tc um imageFiles mode ko keep amId _
      ?_ ?_ ?_ _ _ ?_ hpre2 hstr2 hmid2
    · intro k hk
      refine InvAt_of_eq ?_ ?_ ?_ (hother k hk)
      · simp only [updateMessageInChat_messagesMap_ne _ _ _ _ _ hk]
        rw [congrFun hu1 k]
        simp [hk]
      · simp only [updateMessageInChat_pendingMessages]
        rw [congrFun hu2 k]
        rfl
      · simp only [updateMessageInChat_eventSources]
        rw [congrFun hu3 k]
        rfl
    · simp only [updateMessageInChat_pendingMessages]
      rw [congrFun hu2 tc]
      simp only [updateMessageInChat_pendingMessages]
      exact hpend
    · simp only [updateMessageInChat_eventSources]
      rw [congrFun hu3 tc]
      simp only [updateMessageInChat_eventSources]
      exact hes
    · simp only [updateMessageInChat_messagesMap_self]
      exact hdec2

/-- The work block preserves the streaming invariant, given no streaming
message, no pending entry and no open stream at the target chat. -/
theorem inv_submitPhase2b (st : CoordState) (env : SubmitEnv) (tc : String)
    (um : String) (imageFiles nonImageFiles : List FileMeta) (mode : Bool)
    (ko : Option KnowledgeBaseOptions) (keep : Bool) (r : List NetRequest)
    (hother : ∀ k, k ≠ tc → InvAt st k)
    (hpend : st.pendingMessages tc = none)
    (hes : st.eventSources tc = none)
    (hns : noStreaming (st.messagesMap tc)) :
    Inv (submitPhase2b st env tc um imageFiles nonImageFiles mode ko keep r).state := by
  unfold submitPhase2b
  split
  · split
    · refine inv_submitUploadPhase _ env tc um imageFiles nonImageFiles mode ko keep _ r
        ?_ ?_ ?_ ?_ hns rfl rfl
      · intro k hk
        refine InvAt_of_eq ?_ ?_ ?_ (hother k hk) <;> simp [mapSet, hk]
      · simp only [addMessageToChat_fst_pendingMessages]
        exact hpend
      · simp only [addMessageToChat_fst_eventSources]
        exact hes
      · simp only [addMessageToChat_fst_messagesMap_self]
        rfl
    · refine inv_submitPhase3 _ env tc um imageFiles mode ko keep _ r
        ?_ ?_ ?_ _ _ ?_ hns rfl rfl
      · intro k hk
        refine InvAt_of_eq ?_ ?_ ?_ (hother k hk) <;> simp [mapSet, hk]
      · simp only [addMessageToChat_fst_pendingMessages]
        exact hpend
      · simp only [addMessageToChat_fst_eventSources]
        exact hes
      · simp only [addMessageToChat_fst_messagesMap_self]
        rfl
  · intro k
    by_cases hk : k = tc
    · subst hk
      refine ⟨?_, ?_⟩
      · rw [hpend]
        exact Or.inl hns
      · intro conn hc
        rw [hes] at hc
        cases hc
    · exact hother k hk

/-- Phase two of a submission preserves the streaming invariant. -/
theorem inv_submitPhase2 (st : CoordState) (env : SubmitEnv) (tc : String)
    (um : String) (files : List FileMeta) (mode : Bool)
    (ko : Option KnowledgeBaseOptions) (keep : Bool) (r : List NetRequest)
    (hother : ∀ k, k ≠ tc → InvAt st k)
    (hpend : st.pendingMessages tc = none)
    (hes : st.eventSources tc = none)
    (hns : noStreaming (st.messagesMap tc)) :
    Inv (submitPhase2 st env tc um files mode ko keep r).state := by
  obtain ⟨imgs, hf1, hf2, hf3, hf4, hf5, hf6, hf7, hf8⟩ :=
    imageFold_spec (files.filter (fun f => f.isImage))
      { st with hasStartedResponse := true } tc
  have hnsF : noStreaming ((List.foldl (fun s f => (createImageMessageFromFile s f tc).1)
      { st with hasStartedResponse := true } (files.filter (fun f => f.isImage))).messagesMap tc) := by
    rw [hf1]
    refine noStreaming_append hns ?_
    intro x hx
    rw [(hf2 x hx).2.1]
    simp
  simp only [submitPhase2]
  split
  · -- a user text message is appended before the work block
    refine inv_submitPhase2b _ env tc um _ _ mode ko keep r ?_ ?_ ?_ ?_
    · intro k hk
      refine InvAt_of_eq ?_ ?_ ?_ (hother k hk)
      · rw [addMessageToChat_fst_messagesMap_ne _ _ _ _ _ _ _ hk] <;>
          rw [hf3 k hk] <;> rfl
      · simp only [addMessageToChat_fst_pendingMessages] <;>
          rw [congrFun hf4 k] <;> rfl
      · simp only [addMessageToChat_fst_eventSources] <;>
          rw [congrFun hf5 k] <;> rfl
    · simp only [addMessageToChat_fst_pendingMessages]
      rw [congrFun hf4 tc]
      exact hpend
    · simp only [addMessageToChat_fst_eventSources]
      rw [congrFun hf5 tc]
      exact hes
    · simp only [addMessageToChat_fst_messagesMap_self]
      refine noStreaming_append hnsF ?_
      intro x hx
      rw [List.mem_singleton.1 hx]
      simp
  · refine inv_submitPhase2b _ env tc um _ _ mode ko keep r ?_ ?_ ?_ ?_
    · intro k hk
      refine InvAt_of_eq ?_ ?_ ?_ (hother k hk)
      · rw [hf3 k hk] <;> rfl
      · rw [congrFun hf4 k] <;> rfl
      · rw [congrFun hf5 k] <;> rfl
    · rw [congrFun hf4 tc]
      exact hpend
    · rw [congrFun hf5 tc]
      exact hes
    · exact hnsF

/-! ### The invariant across whole submissions and traces -/

/-- Environment sanity for one submission: when it would create a new
conversation, the server-assigned id is fresh (no messages, no pending
entry, no open stream are already recorded under it). -/
def goodSubmit (st : CoordState) (env : SubmitEnv) : Bool :=
  match st.activeChat with
  | some _ => true
  | none =>
      match env.createNewChatResult with
      | none => true
      | some ch =>
          decide (st.messagesMap ch.id = []) && (st.pendingMessages ch.id).isNone &&
            (st.eventSources ch.id).isNone

/-- A whole `handleSubmit` call preserves the streaming invariant. -/
theorem inv_handleSubmit (st : CoordState) (env : SubmitEnv) (input : String)
    (files : List FileMeta) (io : Option ImageOptions)
    (ko : Option KnowledgeBaseOptions) (keep : Bool)
    (h : Inv st) (hgood : goodSubmit st env = true) :
    Inv (handleSubmit st env input files io ko keep).state := by
  unfold handleSubmit
  dsimp only
  split
  next => exact h
  next =>
    split
    next => exact h
    next =>
      split
      next => exact h
      next =>
        split
        next => exact h
        next hbusy =>
          split
          next c heqa =>
            have hac : st.activeChat = some c := heqa
            have hnb : (st.loadingChats c || (st.pendingMessages c).isSome) = false := by
              cases hq : (st.loadingChats c || (st.pendingMessages c).isSome)
              · rfl
              · exfalso
                refine hbusy ?_
                rw [hac]
                exact hq
            have hload : st.loadingChats c = false := by
              cases hq : st.loadingChats c
              · rfl
              · rw [hq] at hnb
                cases hnb
            have hpend : st.pendingMessages c = none := by
              cases hq : st.pendingMessages c with
              | none => rfl
              | some v =>
                  rw [hq, hload] at hnb
                  cases hnb
            have hes : st.eventSources c = none := by
              cases hq : st.eventSources c with
              | none => rfl
              | some conn =>
                  have := (h c).2 conn hq
                  rw [hpend] at this
                  cases this
            exact inv_submitPhase2 _ env c _ files _ ko keep _
              (fun k hk => h k) hpend hes (okList_none (hpend ▸ (h c).1))
          next heqa =>
            have hac : st.activeChat = none := heqa
            split
            next hcr => exact fun k => (h k)
            next newChat hcr =>
              have hg2 : (decide (st.messagesMap newChat.id = []) &&
                  (st.pendingMessages newChat.id).isNone &&
                  (st.eventSources newChat.id).isNone) = true := by
                unfold goodSubmit at hgood
                simp only [hac, hcr] at hgood
                exact hgood
              rw [Bool.and_eq_true, Bool.and_eq_true] at hg2
              have hmsg : st.messagesMap newChat.id = [] := by
                have h1 := hg2.1.1
                simpa using h1
              have hpend : st.pendingMessages newChat.id = none := by
                have h1 := hg2.1.2
                cases hq : st.pendingMessages newChat.id with
                | none => rfl
                | some v =>
                    rw [hq] at h1
                    cases h1
              have hes : st.eventSources newChat.id = none := by
                have h1 := hg2.2
                cases hq : st.eventSources newChat.id with
                | none => rfl
                | some conn =>
                    rw [hq] at h1
                    cases h1
              exact inv_submitPhase2 _ env newChat.id _ files _ ko keep _
                (fun k hk => h k) hpend hes (by rw [hmsg]; exact noStreaming_nil)

/-- Environment sanity per operation: stop cancellations succeed and created
conversations are fresh. -/
def goodOp (st : CoordState) : Op → Bool
  | .submit env _ _ _ _ _ => goodSubmit st env
  | .stop env _ => env.stopOk
  | _ => true

/-- Environment sanity along a whole trace. -/
def goodTraceB : CoordState → List Op → Bool
  | _, [] => true
  | st, op :: ops => goodOp st op && goodTraceB (step st op) ops

/-- One sane step preserves the streaming invariant. -/
theorem inv_step (st : CoordState) (op : Op) (h : Inv st)
    (hg : goodOp st op = true) : Inv (step st op) := by
  cases op with
  | submit env input files io ko keep =>
      exact inv_handleSubmit st env input files io ko keep h hg
  | streamMsg chatId data => exact inv_esOnMessage st chatId data h
  | streamErr chatId => exact inv_esOnError st chatId h
  | stop env chatId => exact inv_stopQuery_ok st env chatId hg h
  | clear => exact inv_clearMessages st h

/-- A sane trace preserves the streaming invariant. -/
theorem inv_runOps (st : CoordState) (ops : List Op) (h : Inv st)
    (hg : goodTraceB st ops = true) : Inv (runOps st ops) := by
  induction ops generalizing st with
  | nil => exact h
  | cons op ops ih =>
      have hg2 := hg
      unfold goodTraceB at hg2
      rw [Bool.and_eq_true] at hg2
      exact ih (step st op) (inv_step st op h hg2.1) hg2.2

/-- The initial single-conversation state satisfies the invariant. -/
theorem inv_readyState : Inv readyState := by
  intro c
  constructor
  · exact Or.inl noStreaming_nil
  · intro conn hc
    cases hc

/-! ### Concrete states and environments for the scenarios -/

/-- A stop environment whose cancellation POST succeeds. -/
def okStopEnv : StopEnv := { user := some { token := "t" }, stopOk := true }

/-- A stop environment whose cancellation POST fails. -/
def failStopEnv : StopEnv := { user := some { token := "t" }, stopOk := false }

/-- An authenticated environment whose staging call fails. -/
def failStagingEnv : SubmitEnv := { okEnv with stagingSessionId := none }

/-- An authenticated environment whose upload call fails. -/
def failUploadEnv : SubmitEnv := { okEnv with uploadOk := false }

/-- A concrete image attachment. -/
def imgFile : FileMeta := { isImage := true, readOk := true, payload := "p" }

/-- A concrete non-image (document) attachment. -/
def docFile : FileMeta := { isImage := false, readOk := true, payload := "d" }

/-- The state right after an accepted text submission on conversation `"c"`:
user message appended, assistant message streaming, stream open, pending
entry set, loading flag set. -/
def helloBusyState : CoordState :=
  (handleSubmit readyState okEnv "hello" [] none none false).state

/-- The state after the full "hello" scenario: submission, two content
fragments, and the `[DONE]` sentinel. -/
def helloDoneState : CoordState :=
  runOps readyState
    [.submit okEnv "hello" [] none none false,
     .streamMsg "c" "hi", .streamMsg "c" " there", .streamMsg "c" "[DONE]"]

/-- The state reached by submitting, stopping with a failing cancellation
POST, and submitting again: the sequence that breaks the single-streaming
invariant. -/
def doubleStreamState : CoordState :=
  runOps readyState
    [.submit okEnv "hello" [] none none false,
     .stop failStopEnv "c",
     .submit okEnv "again" [] none none false]

/-! ### URL-parameter counting (for the session/query sub-protocol) -/

/-- Number of occurrences of the key `k` among URL parameters. -/
def countKey (ps : List (String × String)) (k : String) : Nat :=
  (ps.filter (fun p => p.1 = k)).length

@[simp] theorem countKey_nil (k : String) : countKey [] k = 0 := rfl

@[simp] theorem countKey_append (a b : List (String × String)) (k : String) :
    countKey (a ++ b) k = countKey a k + countKey b k := by
  simp [countKey, List.filter_append]

@[simp] theorem countKey_cons (q : String × String) (t : List (String × String)) (k : String) :
    countKey (q :: t) k = (if q.1 = k then 1 else 0) + countKey t k := by
  by_cases h : q.1 = k <;> simp [countKey, List.filter, h] <;> omega

@[simp] theorem countKey_ite (c : Prop) [Decidable c] (a b : List (String × String)) (k : String) :
    countKey (if c then a else b) k = if c then countKey a k else countKey b k := by
  split <;> rfl

@[simp] theorem countKey_optPair (o : Option String) (n k : String) :
    countKey (match o with | some s => [(n, s)] | none => []) k =
      if n = k ∧ o.isSome then 1 else 0 := by
  cases o <;> by_cases h : n = k <;> simp [h]

/-! ### Claim C1 -/

/-- C1: a `submit` call for a busy conversation (loading flag set or a
pending-response entry present) returns `false` synchronously, appends no
messages and changes no state; in particular a second `submit` issued while
the first is still in flight is rejected with the state unchanged. -/
theorem submit_rejected_when_busy (st : CoordState) (env : SubmitEnv)
    (input : String) (files : List FileMeta) (io : Option ImageOptions)
    (ko : Option KnowledgeBaseOptions) (keep : Bool) (c : String)
    (hc : st.activeChat = some c)
    (hbusy : st.loadingChats c = true ∨ (st.pendingMessages c).isSome = true) :
    (handleSubmit st env input files io ko keep).ok = false ∧
    (handleSubmit st env input files io ko keep).state = st := by
  have hcond : (match st.activeChat with
      | some c => st.loadingChats c || (st.pendingMessages c).isSome
      | none => false) = true := by
    rw [hc]
    rcases hbusy with hb | hb <;> simp [hb]
  unfold handleSubmit
  dsimp only
  split
  next => exact ⟨rfl, rfl⟩
  next =>
    split
    next => exact ⟨rfl, rfl⟩
    next =>
      split
      next => exact ⟨rfl, rfl⟩
      next => exact ⟨rfl, rfl⟩

/-- Witness for C1: after a first accepted submission of "hello", the
conversation is busy, and a second immediate submission is rejected with the
state untouched. -/
theorem submit_rejected_when_busy_witness :
    helloBusyState.activeChat = some "c" ∧
    (helloBusyState.pendingMessages "c").isSome = true ∧
    (handleSubmit helloBusyState okEnv "again" [] none none false).ok = false ∧
    (handleSubmit helloBusyState okEnv "again" [] none none false).state = helloBusyState := by
  refine ⟨by decide, by decide, ?_, ?_⟩
  · exact (submit_rejected_when_busy helloBusyState okEnv "again" [] none none false "c"
      (by decide) (Or.inr (by decide))).1
  · exact (submit_rejected_when_busy helloBusyState okEnv "again" [] none none false "c"
      (by decide) (Or.inr (by decide))).2

/-! ### Claim C2 -/

/-- C2: on an open stream, every non-sentinel fragment is appended (never
replacing) to the target message's content with `[NEWLINE]` rewritten to a
line break, and `[DONE]` closes the connection, completes the message,
clears loading and removes the pending entry; the "hello" scenario ends
with exactly the user message `"hello"` and a complete assistant message
`"hi there"`, loading cleared and no pending entry. -/
theorem stream_folding_behaviour :
    (∀ (st : CoordState) (c : String) (conn : StreamConn) (d : String),
      st.eventSources c = some conn → d ≠ "[DONE]" →
      (esOnMessage st c d).messagesMap c = (st.messagesMap c).map
        (fun m => if m.id = conn.messageId then
          { m with content := m.content ++ replaceNewlines d } else m) ∧
      (esOnMessage st c d).pendingMessages = st.pendingMessages ∧
      (esOnMessage st c d).eventSources = st.eventSources) ∧
    (∀ (st : CoordState) (c : String) (conn : StreamConn),
      st.eventSources c = some conn →
      (esOnMessage st c "[DONE]").eventSources c = none ∧
      (esOnMessage st c "[DONE]").loadingChats c = false ∧
      (esOnMessage st c "[DONE]").pendingMessages c = none ∧
      (esOnMessage st c "[DONE]").messagesMap c = (st.messagesMap c).map
        (fun m => if m.id = conn.messageId then
          { m with status := MsgStatus.complete } else m)) ∧
    replaceNewlines "a[NEWLINE]b" = "a\nb" ∧
    (helloDoneState.messagesMap "c" =
      [{ id := 0, role := .user, content := "hello", status := .complete },
       { id := 1, role := .assistant, content := "hi there", status := .complete }] ∧
     helloDoneState.loadingChats "c" = false ∧
     helloDoneState.pendingMessages "c" = none) := by
  refine ⟨?_, ?_, by decide, by decide, by decide, by decide⟩
  · intro st c conn d hes hd
    obtain ⟨h1, _, h3, h4, _⟩ := esOnMessage_frag_spec st c conn d hes hd
    exact ⟨h1, h3, h4⟩
  · intro st c conn hes
    obtain ⟨h1, _, h3, _, h5, _, h7, _⟩ := esOnMessage_done_spec st c conn hes
    exact ⟨h5, h7, h3, h1⟩

/-- Witness for C2: the fragment rule applied to the concrete busy state
after submitting "hello". -/
theorem stream_folding_behaviour_witness :
    (esOnMessage helloBusyState "c" "hi").messagesMap "c" =
      (helloBusyState.messagesMap "c").map
        (fun m => if m.id = 1 then
          { m with content := m.content ++ replaceNewlines "hi" } else m) := by
  have hes : helloBusyState.eventSources "c" = some
      { url := [("chat_id", "c"), ("token", "t"), ("deployment_name", "GPT-4.1"),
        ("query", "hello")], messageId := 1 } := by decide
  exact (stream_folding_behaviour.1 helloBusyState "c" _ "hi" hes (by decide)).1

/-! ### Claim C3 -/

/-- C3 counterexample: after a submission, a stop whose cancellation POST
fails, and a second submission, conversation `"c"` holds two messages with
status `streaming` at once — the invariant as stated is false. -/
theorem two_streaming_counterexample :
    countStreaming (doubleStreamState.messagesMap "c") = 2 := by
  decide

/-- C3 (amended): for every sequence of operations (submit, stream payload,
stream error, stop, clear) in which every stop's cancellation POST succeeds
and newly created conversations are fresh, every conversation holds at most
one streaming message.  (When a stop's POST fails, the catch block leaves
the stream open and its message streaming while clearing the busy markers,
so a subsequent submit can create a second streaming message.) -/
theorem at_most_one_streaming (st : CoordState) (ops : List Op) (c : String)
    (hInv : Inv st) (hg : goodTraceB st ops = true) :
    countStreaming ((runOps st ops).messagesMap c) ≤ 1 :=
  okList_countStreaming ((inv_runOps st ops hInv hg) c).1

/-- Witness for C3 (amended): a concrete sane trace with a successful stop
keeps at most one streaming message. -/
theorem at_most_one_streaming_witness :
    goodTraceB readyState
      [.submit okEnv "hello" [] none none false, .streamMsg "c" "hi",
       .stop okStopEnv "c", .submit okEnv "again" [] none none false,
       .streamMsg "c" "[DONE]"] = true ∧
    countStreaming ((runOps readyState
      [.submit okEnv "hello" [] none none false, .streamMsg "c" "hi",
       .stop okStopEnv "c", .submit okEnv "again" [] none none false,
       .streamMsg "c" "[DONE]"]).messagesMap "c") ≤ 1 := by
  refine ⟨by decide, ?_⟩
  exact at_most_one_streaming readyState
    [.submit okEnv "hello" [] none none false, .streamMsg "c" "hi",
     .stop okStopEnv "c", .submit okEnv "again" [] none none false,
     .streamMsg "c" "[DONE]"] "c" inv_readyState (by decide)

/-! ### Claim C4 -/

/-- C4 counterexample: an accepted submission with an image attachment and
empty text whose staging attempt yields no usable session id (`handleSubmit
readyState failStagingEnv "" [imgFile]`) opens a stream whose URL carries
neither a `session_id` nor a `query` parameter, refuting "never neither";
the staging request itself was issued, so this is the fallback path. -/
theorem query_url_neither_param_counterexample :
    (handleSubmit readyState failStagingEnv "" [imgFile] none none false).ok = true ∧
    ((handleSubmit readyState failStagingEnv "" [imgFile] none none false).state.eventSources
        "c").map (fun conn => (countKey conn.url "session_id", countKey conn.url "query")) =
      some (0, 0) ∧
    NetRequest.stagingReq "c" ∈
      (handleSubmit readyState failStagingEnv "" [imgFile] none none false).reqs := by
  decide

/-- C4 (amended): every invocation of the session/query sub-protocol opens a
stream whose URL has exactly one `chat_id`, one `token` and one
`deployment_name` parameter; it carries exactly one `session_id` when
staging is attempted (nonempty text over 1000 characters, or at least one
image) and the staging call returns a usable session id, and exactly one
`query` when no session id is in hand and the text is nonempty — so with
empty text and failed (or skipped) staging it carries neither, and it never
carries both; a staging request is issued exactly when the staging
condition holds, and the stream is opened in every case. -/
theorem query_url_parameters (st : CoordState) (env : SubmitEnv) (um : String)
    (mid : Nat) (c : String) (imgs : List FileMeta) (kb : Option String) (keep : Bool) :
    ∃ conn, (createQueryRequest st env um mid c imgs kb keep).1.eventSources c = some conn ∧
      conn.messageId = mid ∧
      countKey conn.url "chat_id" = 1 ∧
      countKey conn.url "token" = 1 ∧
      countKey conn.url "deployment_name" = 1 ∧
      countKey conn.url "session_id" =
        (if ((um ≠ "" ∧ um.length > 1000) ∨ imgs.length > 0) ∧
            (strTruthy env.stagingSessionId).isSome then 1 else 0) ∧
      countKey conn.url "query" =
        (if (((um ≠ "" ∧ um.length > 1000) ∨ imgs.length > 0) ∧
            (strTruthy env.stagingSessionId).isSome) ∨ um = "" then 0 else 1) ∧
      ((NetRequest.stagingReq c ∈ (createQueryRequest st env um mid c imgs kb keep).2) ↔
        ((um ≠ "" ∧ um.length > 1000) ∨ imgs.length > 0)) ∧
      NetRequest.streamOpen c conn.url ∈ (createQueryRequest st env um mid c imgs kb keep).2 := by
  unfold createQueryRequest
  dsimp only
  by_cases hstage : (um ≠ "" ∧ um.length > 1000) ∨ imgs.length > 0
  · cases hsid : strTruthy env.stagingSessionId with
    | some sid =>
        refine ⟨_, mapSet_same _ _ _, rfl, ?_, ?_, ?_, ?_, ?_, ?_, ?_⟩ <;>
          simp only [hstage, if_true, hsid] <;> simp [hstage, hsid]
    | none =>
        by_cases hum : um = "" <;>
          (refine ⟨_, mapSet_same _ _ _, rfl, ?_, ?_, ?_, ?_, ?_, ?_, ?_⟩ <;>
            simp only [hstage, if_true, hsid] <;> simp [hstage, hsid, hum])
  · by_cases hum : um = "" <;>
      (refine ⟨_, mapSet_same _ _ _, rfl, ?_, ?_, ?_, ?_, ?_, ?_, ?_⟩ <;>
        simp only [hstage, if_false] <;> simp [hstage, hum])

/-! ### Claim C6 -/

/-- Number of enabled tool flags. -/
def toolCount (ts : ToolState) : Nat :=
  (cond ts.isCodeAnalysisEnabled 1 0) + (cond ts.isWebSearchEnabled 1 0) +
    (cond ts.isImageCreatorEnabled 1 0) + (cond ts.isKnowledgeBasesEnabled 1 0)

/-- At most one of the four tool flags is enabled. -/
def atMostOneTool (ts : ToolState) : Prop :=
  toolCount ts ≤ 1

/-- One `setMode` interaction: the UI may have changed the active chat
before calling `updateToolState`. -/
def applyToolOp (st : CoordState) (op : Option String × ToolName × Bool) : CoordState :=
  updateToolState { st with activeChat := op.1 } op.2.1 op.2.2

/-- The tool-mode register invariant: every slot (the draft sentinel
included) holds at most one enabled flag. -/
def ToolInv (st : CoordState) : Prop :=
  ∀ k, atMostOneTool ((st.toolStatesMap k).getD defaultToolState)

theorem toolCount_setFlag_false (ts : ToolState) (t : ToolName) :
    toolCount (ToolState.setFlag ts t false) ≤ toolCount ts := by
  rcases ts with ⟨a, b, c, d⟩
  cases t <;> cases a <;> cases b <;> cases c <;> cases d <;> decide

theorem toolCount_setFlag_true_default (t : ToolName) :
    toolCount (ToolState.setFlag defaultToolState t true) = 1 := by
  cases t <;> decide

/-- One `updateToolState` call preserves the tool-mode register invariant. -/
theorem toolInv_applyToolOp (st : CoordState) (op : Option String × ToolName × Bool)
    (h : ToolInv st) : ToolInv (applyToolOp st op) := by
  unfold applyToolOp updateToolState ToolInv
  intro k
  dsimp only
  by_cases hk : k = Option.getD op.1 "new"
  · subst hk
    rw [mapSet_same]
    split
    · simpa [atMostOneTool] using le_of_eq (toolCount_setFlag_true_default op.2.1)
    · exact le_trans (toolCount_setFlag_false _ op.2.1) (h (op.1.getD "new"))
  · rw [mapSet_ne _ _ _ _ hk]
    exact h k

/-- C6: enabling a tool mode replaces the slot by the all-false record with
only the requested flag set; disabling clears only the requested flag; and
after every sequence of `setMode` operations every conversation slot (the
draft sentinel included) has at most one enabled tool flag. -/
theorem tool_mode_exclusivity :
    (∀ (st : CoordState) (t : ToolName),
      (updateToolState st t true).toolStatesMap (st.activeChat.getD "new") =
        some (ToolState.setFlag defaultToolState t true)) ∧
    (∀ (st : CoordState) (t : ToolName),
      (updateToolState st t false).toolStatesMap (st.activeChat.getD "new") =
        some (ToolState.setFlag
          ((st.toolStatesMap (st.activeChat.getD "new")).getD defaultToolState) t false)) ∧
    (∀ (st : CoordState) (ops : List (Option String × ToolName × Bool)),
      ToolInv st → ToolInv (ops.foldl applyToolOp st)) := by
  refine ⟨?_, ?_, ?_⟩
  · intro st t
    unfold updateToolState
    dsimp only
    rw [if_pos rfl, mapSet_same]
  · intro st t
    unfold updateToolState
    dsimp only
    rw [if_neg (by simp), mapSet_same]
  · intro st ops h
    induction ops generalizing st with
    | nil => exact h
    | cons op ops ih => exact ih (applyToolOp st op) (toolInv_applyToolOp st op h)

/-- The initial state satisfies the tool-mode register invariant. -/
theorem toolInv_readyState : ToolInv readyState := by
  intro k
  unfold readyState atMostOneTool
  dsimp only
  split <;> decide

/-- Witness for C6: the invariant holds after a concrete sequence of
enables and disables. -/
theorem tool_mode_exclusivity_witness :
    ToolInv readyState ∧
    ToolInv ([(some "c", ToolName.webSearch, true),
      ((none : Option String), ToolName.imageCreator, true),
      (some "c", ToolName.codeAnalysis, true),
      (some "c", ToolName.codeAnalysis, false)].foldl applyToolOp readyState) :=
  ⟨toolInv_readyState,
   tool_mode_exclusivity.2.2 readyState
     [(some "c", ToolName.webSearch, true), ((none : Option String), ToolName.imageCreator, true),
      (some "c", ToolName.codeAnalysis, true), (some "c", ToolName.codeAnalysis, false)]
     toolInv_readyState⟩

/-! ### Claim C7 -/

/-- C7 counterexample: on a busy conversation with an open stream, a stop
whose cancellation POST fails leaves the stream handle open and the last
message still streaming, contrary to the claim that local cleanup happens
even when the POST fails. -/
theorem stop_fail_keeps_stream_counterexample :
    ((stopQuery helloBusyState failStopEnv "c").1.eventSources "c").isSome = true ∧
    (((stopQuery helloBusyState failStopEnv "c").1.messagesMap "c").getLast?).map
      (fun m => m.status) = some MsgStatus.streaming := by
  decide

/-- C7 (amended): when the cancellation POST succeeds, `stopQuery` closes
and discards the stream handle, completes a still-streaming last message in
place, and clears the pending entry, loading flag, upload status and
response-started flag; when the POST fails, only the pending entry, loading
flag and upload status are cleared — the stream handle stays open, no
message is touched and the response-started flag keeps its value.  The POST
itself is issued in both cases. -/
theorem stopQuery_cleanup (st : CoordState) (env : StopEnv) (c : String)
    (htok : tokenPresent env.user = true) :
    (env.stopOk = true →
      (stopQuery st env c).2 = [.stopReq c] ∧
      (stopQuery st env c).1.eventSources c = none ∧
      (stopQuery st env c).1.pendingMessages c = none ∧
      (stopQuery st env c).1.loadingChats c = false ∧
      (stopQuery st env c).1.uploadStatus = { isUploading := false, isIndexing := false } ∧
      (stopQuery st env c).1.hasStartedResponse = false ∧
      (stopQuery st env c).1.messagesMap c =
        (match (st.messagesMap c).getLast? with
         | some lm =>
             if lm.status = MsgStatus.streaming then
               (st.messagesMap c).map
                 (fun m => if m.id = lm.id then { m with status := MsgStatus.complete } else m)
             else st.messagesMap c
         | none => st.messagesMap c)) ∧
    (env.stopOk = false →
      (stopQuery st env c).2 = [.stopReq c] ∧
      (stopQuery st env c).1.messagesMap = st.messagesMap ∧
      (stopQuery st env c).1.eventSources = st.eventSources ∧
      (stopQuery st env c).1.pendingMessages c = none ∧
      (stopQuery st env c).1.loadingChats c = false ∧
      (stopQuery st env c).1.uploadStatus = { isUploading := false, isIndexing := false } ∧
      (stopQuery st env c).1.hasStartedResponse = st.hasStartedResponse) := by
  constructor
  · intro hok
    obtain ⟨h1, h2, _, h4, _, h6, _, h8, h9, _, h11⟩ := stopQuery_ok_spec st env c htok hok
    exact ⟨h1, h2, h4, h6, h8, h9, h11⟩
  · intro hfail
    obtain ⟨h1, h2, h3, h4, _, h6, _, h8, h9, _, _⟩ := stopQuery_fail_spec st env c htok hfail
    exact ⟨h1, h2, h3, h4, h6, h8, h9⟩

/-- Witness for C7 (amended): the success branch on the concrete busy
state completes the streaming message and discards the stream. -/
theorem stopQuery_cleanup_witness :
    tokenPresent okStopEnv.user = true ∧ okStopEnv.stopOk = true ∧
    ((stopQuery helloBusyState okStopEnv "c").1.eventSources "c" = none ∧
     (stopQuery helloBusyState okStopEnv "c").1.pendingMessages "c" = none) := by
  refine ⟨by decide, by decide, ?_, ?_⟩
  · exact ((stopQuery_cleanup helloBusyState okStopEnv "c" (by decide)).1 (by decide)).2.1
  · exact ((stopQuery_cleanup helloBusyState okStopEnv "c" (by decide)).1 (by decide)).2.2.1

/-! ### Claim C8 -/

/-- C8 counterexample: `helloDoneState` has conversation `"c"` idle (no
stream, no pending entry, loading clear, last message complete), yet a stop
call resets the response-started flag from `true` to `false` — not a no-op. -/
theorem stop_idle_changes_flag_counterexample :
    (helloDoneState.eventSources "c" = none ∧
     helloDoneState.pendingMessages "c" = none ∧
     helloDoneState.loadingChats "c" = false ∧
     ((helloDoneState.messagesMap "c").getLast?).map (fun m => m.status) =
       some MsgStatus.complete) ∧
    helloDoneState.hasStartedResponse = true ∧
    (stopQuery helloDoneState okStopEnv "c").1.hasStartedResponse = false := by
  decide

/-- C8 (amended): a stop on a conversation with no in-flight response
raises no exception and leaves every message list, loading flag,
pending-response entry and stream handle unchanged; but it still issues the
cancellation POST, resets the global upload status to idle, and — when the
POST succeeds — resets the global response-started flag to false. -/
theorem stop_idle_effects (st : CoordState) (env : StopEnv) (c : String)
    (hes : st.eventSources c = none) (hpend : st.pendingMessages c = none)
    (hload : st.loadingChats c = false)
    (hlast : ∀ m, (st.messagesMap c).getLast? = some m → m.status ≠ MsgStatus.streaming) :
    (∀ k, (stopQuery st env c).1.messagesMap k = st.messagesMap k) ∧
    (∀ k, (stopQuery st env c).1.pendingMessages k = st.pendingMessages k) ∧
    (∀ k, (stopQuery st env c).1.loadingChats k = st.loadingChats k) ∧
    (∀ k, (stopQuery st env c).1.eventSources k = st.eventSources k) ∧
    (stopQuery st env c).1.uploadStatus =
      (if tokenPresent env.user then { isUploading := false, isIndexing := false }
       else st.uploadStatus) ∧
    (stopQuery st env c).1.hasStartedResponse =
      (if tokenPresent env.user && env.stopOk then false else st.hasStartedResponse) ∧
    (stopQuery st env c).2 = (if tokenPresent env.user then [.stopReq c] else []) := by
  by_cases htok : tokenPresent env.user = true
  · by_cases hok : env.stopOk = true
    · obtain ⟨h1, h2, h3, h4, h5, h6, h7, h8, h9, h10, h11⟩ := stopQuery_ok_spec st env c htok hok
      refine ⟨?_, ?_, ?_, ?_, by simp [htok, h8], by simp [htok, hok, h9], by simp [htok, h1]⟩
      · intro k
        by_cases hk : k = c
        · subst hk
          rw [h11]
          cases hL : (st.messagesMap k).getLast? with
          | none => rfl
          | some lm =>
              have := hlast lm hL
              simp only [hL]
              rw [if_neg this]
        · exact h10 k hk
      · intro k
        by_cases hk : k = c
        · subst hk
          rw [h4, hpend]
        · exact h5 k hk
      · intro k
        by_cases hk : k = c
        · subst hk
          rw [h6, hload]
        · exact h7 k hk
      · intro k
        by_cases hk : k = c
        · subst hk
          rw [h2, hes]
        · exact h3 k hk
    · have hfail : env.stopOk = false := by
        cases hq : env.stopOk
        · rfl
        · exact absurd hq hok
      obtain ⟨h1, h2, h3, h4, h5, h6, h7, h8, h9, _, _⟩ :=
        stopQuery_fail_spec st env c htok hfail
      refine ⟨fun k => congrFun h2 k, ?_, ?_, fun k => congrFun h3 k,
        by simp [htok, h8], by simp [htok, hfail, h9], by simp [htok, h1]⟩
      · intro k
        by_cases hk : k = c
        · subst hk
          rw [h4, hpend]
        · exact h5 k hk
      · intro k
        by_cases hk : k = c
        · subst hk
          rw [h6, hload]
        · exact h7 k hk
  · have htok2 : tokenPresent env.user = false := by
      cases hq : tokenPresent env.user
      · rfl
      · exact absurd hq htok
    have hstop : stopQuery st env c = (st, []) := by
      unfold stopQuery
      rw [if_pos (by simp [htok2])]
    rw [hstop]
    exact ⟨fun k => rfl, fun k => rfl, fun k => rfl, fun k => rfl,
      by simp [htok2], by simp [htok2], by simp [htok2]⟩

/-- Witness for C8 (amended): the effects at the concrete idle state. -/
theorem stop_idle_effects_witness :
    helloDoneState.eventSources "c" = none ∧
    ((stopQuery helloDoneState okStopEnv "c").1.messagesMap "c" =
       helloDoneState.messagesMap "c" ∧
     (stopQuery helloDoneState okStopEnv "c").1.hasStartedResponse =
       (if tokenPresent okStopEnv.user && okStopEnv.stopOk then false
        else helloDoneState.hasStartedResponse)) := by
  refine ⟨by decide, ?_, ?_⟩
  · exact (stop_idle_effects helloDoneState okStopEnv "c" (by decide) (by decide)
      (by decide) (fun m hm => by
        rw [show (helloDoneState.messagesMap "c").getLast? = some { id := 1, role := .assistant, content := "hi there", status := .complete } by decide] at hm
        cases hm
        decide)).1 "c"
  · exact (stop_idle_effects helloDoneState okStopEnv "c" (by decide) (by decide)
      (by decide) (fun m hm => by
        rw [show (helloDoneState.messagesMap "c").getLast? = some { id := 1, role := .assistant, content := "hi there", status := .complete } by decide] at hm
        cases hm
        decide)).2.2.2.2.2.1

/-! ### Claim C10 -/

/-- C10: a stop without an authenticated user returns immediately — no
network request is issued and the state is returned entirely unchanged. -/
theorem stop_without_credential_noop (st : CoordState) (env : StopEnv)
    (c : String) (h : env.user = none) :
    stopQuery st env c = (st, []) := by
  unfold stopQuery
  rw [if_pos (by simp [h, tokenPresent])]

/-- Witness for C10 at a concrete state. -/
theorem stop_without_credential_noop_witness :
    stopQuery helloBusyState { user := none, stopOk := true } "c" =
      (helloBusyState, []) :=
  stop_without_credential_noop helloBusyState { user := none, stopOk := true } "c" rfl

/-- `updateMessageInChat` leaves the tool-state register unchanged. -/
@[simp] theorem updateMessageInChat_toolStatesMap (st : CoordState) (c : String)
    (mid : Nat) (u : MsgUpdate) :
    (updateMessageInChat st c mid u).toolStatesMap = st.toolStatesMap := rfl

/-- `addMessageToChat` leaves the tool-state register unchanged. -/
@[simp] theorem addMessageToChat_fst_toolStatesMap (st : CoordState) (c : String)
    (r : Role) (content : String) (s : MsgStatus) (ir : Option ImageResult) :
    (addMessageToChat st c r content s ir).1.toolStatesMap = st.toolStatesMap := rfl

/-! ### Request classifiers (for the upload sub-protocol) -/

/-- Recognizer for the multipart upload POST. -/
def isUploadReq : NetRequest → Bool
  | .uploadReq _ _ _ => true
  | _ => false

/-- Recognizer for the indexing POST. -/
def isIndexReq : NetRequest → Bool
  | .indexReq _ => true
  | _ => false

/-- Recognizer for the requests that launch an answer to the query: the
staging POST, the stream open, and the image-generation call. -/
def isQueryReq : NetRequest → Bool
  | .stagingReq _ => true
  | .streamOpen _ _ => true
  | .imageGenReq _ => true
  | _ => false

/-- Phase three issues no upload and no index request, and leaves the
tool-state register unchanged. -/
theorem submitPhase3_filters (st : CoordState) (env : SubmitEnv) (tc um : String)
    (imgs : List FileMeta) (mode : Bool) (ko : Option KnowledgeBaseOptions)
    (keep : Bool) (amId : Nat) (r : List NetRequest) :
    (submitPhase3 st env tc um imgs mode ko keep amId r).reqs.filter isUploadReq =
      r.filter isUploadReq ∧
    (submitPhase3 st env tc um imgs mode ko keep amId r).reqs.filter isIndexReq =
      r.filter isIndexReq ∧
    (submitPhase3 st env tc um imgs mode ko keep amId r).state.toolStatesMap =
      st.toolStatesMap := by
  unfold submitPhase3 createQueryRequest
  dsimp only
  split
  · split
    · split <;> simp [isUploadReq, isIndexReq]
    · refine ⟨?_, ?_, rfl⟩ <;>
        (rw [List.filter_append, List.filter_append] <;> split <;>
          simp [isUploadReq, isIndexReq])
  · simp [isUploadReq, isIndexReq]

/-- The upload block issues exactly one upload request tagged by the chat's
tool mode, issues the index request exactly when the upload succeeded with a
`"doc"` classification, leaves the tool-state register unchanged, and on a
failed upload finalizes the assistant message with the error text, clears
loading and pending, and issues no query request. -/
theorem submitUploadPhase_spec (st : CoordState) (env : SubmitEnv) (tc um : String)
    (imgs nif : List FileMeta) (mode : Bool) (ko : Option KnowledgeBaseOptions)
    (keep : Bool) (amId : Nat) (r : List NetRequest)
    (htok : tokenPresent env.user = true) :
    (submitUploadPhase st env tc um imgs nif mode ko keep amId r).reqs.filter isUploadReq =
      r.filter isUploadReq ++ [.uploadReq tc (uploadFileTypeFor st tc) nif.length] ∧
    (submitUploadPhase st env tc um imgs nif mode ko keep amId r).reqs.filter isIndexReq =
      r.filter isIndexReq ++
        (if env.uploadOk = true ∧ uploadFileTypeFor st tc = "doc" then [.indexReq tc] else []) ∧
    (submitUploadPhase st env tc um imgs nif mode ko keep amId r).state.toolStatesMap =
      st.toolStatesMap ∧
    (env.uploadOk = false →
      (submitUploadPhase st env tc um imgs nif mode ko keep amId r).state.messagesMap tc =
        (st.messagesMap tc).map (fun m =>
          if m.id = amId then applyUpdate uploadErrorPatch (applyUpdate uploadFlagPatch m)
          else m) ∧
      (submitUploadPhase st env tc um imgs nif mode ko keep amId r).state.loadingChats tc = false ∧
      (submitUploadPhase st env tc um imgs nif mode ko keep amId r).state.pendingMessages tc = none ∧
      (submitUploadPhase st env tc um imgs nif mode ko keep amId r).reqs.filter isQueryReq =
        r.filter isQueryReq) := by
  obtain ⟨hm, hp, hes, hl, hts, hac, hsr, hnc, hni, -, hgood⟩ :=
    uploadFilesToChat_spec
      (updateMessageInChat st tc amId uploadFlagPatch) env tc nif
  obtain ⟨hreqs, hres⟩ := hgood htok
  have hft : uploadFileTypeFor
      (updateMessageInChat st tc amId uploadFlagPatch) tc =
      uploadFileTypeFor st tc := rfl
  rw [hft] at hreqs hres
  unfold submitUploadPhase
  dsimp only
  by_cases hup : env.uploadOk = true
  · by_cases hdoc : uploadFileTypeFor st tc = "doc"
    · by_cases hidx : env.indexOk = true
      · have hres2 : (uploadFilesToChat
            (updateMessageInChat st tc amId uploadFlagPatch)
            env tc nif).result = some (env.uploadDocFiles, env.uploadCodeFiles) := by
          rw [hres]
          simp [hup, hidx]
        simp only [hres2]
        obtain ⟨hu3, hi3, ht3⟩ := submitPhase3_filters
          (updateMessageInChat (uploadFilesToChat
              (updateMessageInChat st tc amId uploadFlagPatch)
              env tc nif).state tc amId uploadFlagOffPatch)
          env tc um imgs mode ko keep amId
          (r ++ (uploadFilesToChat
              (updateMessageInChat st tc amId uploadFlagPatch)
              env tc nif).reqs ++
            [.updateFilesCallback tc env.uploadDocFiles env.uploadCodeFiles])
        refine ⟨?_, ?_, ?_, ?_⟩
        · rw [hu3, hreqs]
          simp [hup, hdoc, isUploadReq, List.filter_append]
        · rw [hi3, hreqs]
          simp [hup, hdoc, isIndexReq, List.filter_append]
        · rw [ht3]
          simp [hts]
        · intro hcon
          rw [hcon] at hup
          cases hup
      · have hres2 : (uploadFilesToChat
            (updateMessageInChat st tc amId uploadFlagPatch)
            env tc nif).result = none := by
          rw [hres]
          simp [hdoc, hidx]
        simp only [hres2]
        refine ⟨?_, ?_, ?_, ?_⟩
        · rw [List.filter_append, hreqs]
          simp [hup, hdoc, isUploadReq, List.filter_append]
        · rw [List.filter_append, hreqs]
          simp [hup, hdoc, isIndexReq, List.filter_append]
        · simp [hts]
        · intro hcon
          rw [hcon] at hup
          cases hup
    · have hres2 : (uploadFilesToChat
          (updateMessageInChat st tc amId uploadFlagPatch)
          env tc nif).result = some (env.uploadDocFiles, env.uploadCodeFiles) := by
        rw [hres]
        simp [hup, hdoc]
      simp only [hres2]
      obtain ⟨hu3, hi3, ht3⟩ := submitPhase3_filters
        (updateMessageInChat (uploadFilesToChat
            (updateMessageInChat st tc amId uploadFlagPatch)
            env tc nif).state tc amId uploadFlagOffPatch)
        env tc um imgs mode ko keep amId
        (r ++ (uploadFilesToChat
            (updateMessageInChat st tc amId uploadFlagPatch)
            env tc nif).reqs ++
          [.updateFilesCallback tc env.uploadDocFiles env.uploadCodeFiles])
      refine ⟨?_, ?_, ?_, ?_⟩
      · rw [hu3, hreqs]
        simp [hup, hdoc, isUploadReq, List.filter_append]
      · rw [hi3, hreqs]
        simp [hup, hdoc, isIndexReq, List.filter_append]
      · rw [ht3]
        simp [hts]
      · intro hcon
        rw [hcon] at hup
        cases hup
  · have hupf : env.uploadOk = false := by
      cases h : env.uploadOk
      · rfl
      · exact absurd h hup
    have hres2 : (uploadFilesToChat
        (updateMessageInChat st tc amId uploadFlagPatch)
        env tc nif).result = none := by
      rw [hres]
      simp [hupf]
    simp only [hres2]
    refine ⟨?_, ?_, ?_, ?_⟩
    · rw [List.filter_append, hreqs]
      simp [hupf, isUploadReq, List.filter_append]
    · rw [List.filter_append, hreqs]
      simp [hupf, isIndexReq, List.filter_append]
    · simp [hts]
    · intro _
      refine ⟨?_, ?_, ?_, ?_⟩
      · show (updateMessageInChat (uploadFilesToChat
            (updateMessageInChat st tc amId uploadFlagPatch)
            env tc nif).state tc amId _).messagesMap tc = _
        rw [updateMessageInChat_messagesMap_self, hm,
          updateMessageInChat_messagesMap_self, List.map_map]
        refine List.map_congr_left (fun m _ => ?_)
        by_cases hid : m.id = amId <;> simp [hid, uploadFlagPatch]
      · show mapSet _ tc false tc = false
        exact mapSet_same _ _ _
      · show mapSet _ tc none tc = none
        exact mapSet_same _ _ _
      · rw [List.filter_append, hreqs]
        simp [hupf, isQueryReq, List.filter_append]

/-- The `file_type` classification only reads the tool-state register. -/
theorem uploadFileTypeFor_congr {s1 s2 : CoordState} (c : String)
    (h : s1.toolStatesMap = s2.toolStatesMap) :
    uploadFileTypeFor s1 c = uploadFileTypeFor s2 c := by
  unfold uploadFileTypeFor
  rw [h]

/-- The classification is always `"code"` or `"doc"`. -/
theorem uploadFileTypeFor_cases (s : CoordState) (c : String) :
    uploadFileTypeFor s c = "code" ∨ uploadFileTypeFor s c = "doc" := by
  unfold uploadFileTypeFor
  split
  · exact Or.inl rfl
  · exact Or.inr rfl

/-- The work block, on a submission with non-image files: one upload request
tagged by the final tool-state register, the index request exactly on a
successful `"doc"` upload, and the failure clean-up. -/
theorem submitPhase2b_spec (st : CoordState) (env : SubmitEnv) (tc um : String)
    (imgs nif : List FileMeta) (mode : Bool) (ko : Option KnowledgeBaseOptions)
    (keep : Bool) (r : List NetRequest)
    (htok : tokenPresent env.user = true) (hnn : nif.length > 0) :
    (submitPhase2b st env tc um imgs nif mode ko keep r).reqs.filter isUploadReq =
      r.filter isUploadReq ++
        [.uploadReq tc
          (uploadFileTypeFor (submitPhase2b st env tc um imgs nif mode ko keep r).state tc)
          nif.length] ∧
    (submitPhase2b st env tc um imgs nif mode ko keep r).reqs.filter isIndexReq =
      r.filter isIndexReq ++
        (if env.uploadOk = true ∧
            uploadFileTypeFor (submitPhase2b st env tc um imgs nif mode ko keep r).state tc =
              "doc"
         then [.indexReq tc] else []) ∧
    (env.uploadOk = false →
      (∃ pre m2,
        (submitPhase2b st env tc um imgs nif mode ko keep r).state.messagesMap tc =
          pre ++ [m2] ∧
        m2.role = Role.assistant ∧ m2.content = uploadErrorText ∧
        m2.status = MsgStatus.complete) ∧
      (submitPhase2b st env tc um imgs nif mode ko keep r).state.loadingChats tc = false ∧
      (submitPhase2b st env tc um imgs nif mode ko keep r).state.pendingMessages tc = none ∧
      (submitPhase2b st env tc um imgs nif mode ko keep r).reqs.filter isQueryReq =
        r.filter isQueryReq) := by
  unfold submitPhase2b
  dsimp only
  rw [if_pos (Or.inl hnn), if_pos hnn]
  set st4 := { st with loadingChats := mapSet st.loadingChats tc true } with hst4
  obtain ⟨ha, hb, hc, hd⟩ := submitUploadPhase_spec
    (addMessageToChat st4 tc .assistant "" .streaming none).1 env tc um imgs nif mode ko keep
    (addMessageToChat st4 tc .assistant "" .streaming none).2.id r htok
  have hft : uploadFileTypeFor
      (submitUploadPhase (addMessageToChat st4 tc .assistant "" .streaming none).1 env tc um
        imgs nif mode ko keep (addMessageToChat st4 tc .assistant "" .streaming none).2.id
        r).state tc =
      uploadFileTypeFor (addMessageToChat st4 tc .assistant "" .streaming none).1 tc :=
    uploadFileTypeFor_congr tc hc
  have hft2 : uploadFileTypeFor (addMessageToChat st4 tc .assistant "" .streaming none).1 tc =
      uploadFileTypeFor st tc := rfl
  refine ⟨?_, ?_, ?_⟩
  · rw [ha, hft, hft2]
  · rw [hb, hft, hft2]
  · intro hfail
    obtain ⟨hdm, hdl, hdp, hdq⟩ := hd hfail
    refine ⟨?_, hdl, hdp, hdq⟩
    rw [hdm]
    have h5 : (addMessageToChat st4 tc .assistant "" .streaming none).1.messagesMap tc =
        st.messagesMap tc ++
          [{ id := st.nextId, role := .assistant, content := "", status := .streaming
             imageResult := none }] := by
      simp [addMessageToChat]
    rw [h5, List.map_append]
    refine ⟨_, _, rfl, ?_, ?_, ?_⟩
    · simp [addMessageToChat_snd, applyUpdate, uploadErrorPatch, uploadFlagPatch]
    · simp [addMessageToChat_snd, applyUpdate, uploadErrorPatch, uploadFlagPatch]
    · simp [addMessageToChat_snd, applyUpdate, uploadErrorPatch, uploadFlagPatch]

/-- Phase two, on a submission with non-image files: the conclusions of the
work block, with the non-image files computed by the classification filter. -/
theorem submitPhase2_spec (st : CoordState) (env : SubmitEnv) (tc um : String)
    (files : List FileMeta) (mode : Bool) (ko : Option KnowledgeBaseOptions)
    (keep : Bool) (r : List NetRequest)
    (htok : tokenPresent env.user = true)
    (hnif : files.any (fun f => f.isImage = false) = true) :
    (submitPhase2 st env tc um files mode ko keep r).reqs.filter isUploadReq =
      r.filter isUploadReq ++
        [.uploadReq tc
          (uploadFileTypeFor (submitPhase2 st env tc um files mode ko keep r).state tc)
          (files.filter (fun f => f.isImage = false)).length] ∧
    (submitPhase2 st env tc um files mode ko keep r).reqs.filter isIndexReq =
      r.filter isIndexReq ++
        (if env.uploadOk = true ∧
            uploadFileTypeFor (submitPhase2 st env tc um files mode ko keep r).state tc = "doc"
         then [.indexReq tc] else []) ∧
    (env.uploadOk = false →
      (∃ pre m2,
        (submitPhase2 st env tc um files mode ko keep r).state.messagesMap tc = pre ++ [m2] ∧
        m2.role = Role.assistant ∧ m2.content = uploadErrorText ∧
        m2.status = MsgStatus.complete) ∧
      (submitPhase2 st env tc um files mode ko keep r).state.loadingChats tc = false ∧
      (submitPhase2 st env tc um files mode ko keep r).state.pendingMessages tc = none ∧
      (submitPhase2 st env tc um files mode ko keep r).reqs.filter isQueryReq =
        r.filter isQueryReq) := by
  have hnn : (files.filter (fun f => f.isImage = false)).length > 0 := by
    obtain ⟨x, hx, hpx⟩ := List.any_eq_true.mp hnif
    exact List.length_pos.mpr (List.ne_nil_of_mem (List.mem_filter.mpr ⟨hx, hpx⟩))
  unfold submitPhase2
  dsimp only
  exact submitPhase2b_spec _ env tc um _ _ mode ko keep r htok hnn

/-- Inversion of an accepted `handleSubmit`: the target conversation is the
active one (or the freshly created one), and the call reduces to phase two
with a request prefix holding no upload, index or query request. -/
theorem handleSubmit_accepted_shape (st : CoordState) (env : SubmitEnv) (input : String)
    (files : List FileMeta) (io : Option ImageOptions) (ko : Option KnowledgeBaseOptions)
    (keep : Bool)
    (hok : (handleSubmit st env input files io ko keep).ok = true) :
    ∃ tc st0 mode r0,
      (st.activeChat = some tc ∨ (st.activeChat = none ∧
        env.createNewChatResult.map (fun ch => ch.id) = some tc)) ∧
      handleSubmit st env input files io ko keep =
        submitPhase2 st0 env tc (trimStr input) files mode ko keep r0 ∧
      r0.filter isUploadReq = [] ∧ r0.filter isIndexReq = [] ∧
      r0.filter isQueryReq = [] ∧
      st0.messagesMap = st.messagesMap ∧ st0.nextId = st.nextId := by
  unfold handleSubmit at hok
  dsimp only at hok
  split at hok
  next hu => simp at hok
  next hu =>
    split at hok
    next h1 => simp at hok
    next h1 =>
      split at hok
      next h2 => simp at hok
      next h2 =>
        split at hok
        next hbusy => simp at hok
        next hbusy =>
          split at hok
          next c heqa =>
            refine ⟨c, { st with hasStartedResponse := false },
              ((currentToolStateFor { st with hasStartedResponse := false }).isImageCreatorEnabled && io.isSome && decide (trimStr input ≠ "")),
              [], Or.inl heqa, ?_, rfl, rfl, rfl, rfl, rfl⟩
            unfold handleSubmit
            dsimp only
            rw [if_neg hu, if_neg h1, if_neg h2, if_neg hbusy, heqa]
          next heqa =>
            split at hok
            next hcr => simp at hok
            next newChat hcr =>
              refine ⟨newChat.id,
                { st with activeChat := some newChat.id, hasStartedResponse := false, toolStatesMap := mapSet st.toolStatesMap newChat.id (some ((st.toolStatesMap "new").getD defaultToolState)), newChatIds := mapSet st.newChatIds newChat.id true },
                ((currentToolStateFor { st with hasStartedResponse := false }).isImageCreatorEnabled && io.isSome && decide (trimStr input ≠ "")),
                [.createChatReq, .renameReq newChat.id (chatNameTextFor (trimStr input) files)],
                Or.inr ⟨heqa, by rw [hcr]; rfl⟩, ?_, rfl, rfl, rfl, rfl, rfl⟩
              unfold handleSubmit
              dsimp only
              rw [if_neg hu, if_neg h1, if_neg h2, if_neg hbusy, heqa, hcr]

/-! ### Claim C5 -/

/-- C5: every accepted submission carrying non-image files (by a user whose
object holds a token) issues exactly one upload request, tagged `"doc"` or
`"code"` by the target conversation's tool mode; an index request occurs
exactly when the upload succeeded with a `"doc"` classification (so
code-classified files never trigger indexing); and when the upload request
fails, the assistant message is finalized with the human-readable error
string, loading and the pending-response entry are cleared, and no index
and no query request is issued. -/
theorem upload_subprotocol_contract (st : CoordState) (env : SubmitEnv) (input : String)
    (files : List FileMeta) (io : Option ImageOptions) (ko : Option KnowledgeBaseOptions)
    (keep : Bool)
    (hok : (handleSubmit st env input files io ko keep).ok = true)
    (hnif : files.any (fun f => f.isImage = false) = true)
    (htok : tokenPresent env.user = true) :
    ∃ tc,
      (st.activeChat = some tc ∨ (st.activeChat = none ∧
        env.createNewChatResult.map (fun ch => ch.id) = some tc)) ∧
      (uploadFileTypeFor (handleSubmit st env input files io ko keep).state tc = "code" ∨
       uploadFileTypeFor (handleSubmit st env input files io ko keep).state tc = "doc") ∧
      (handleSubmit st env input files io ko keep).reqs.filter isUploadReq =
        [.uploadReq tc
          (uploadFileTypeFor (handleSubmit st env input files io ko keep).state tc)
          (files.filter (fun f => f.isImage = false)).length] ∧
      (handleSubmit st env input files io ko keep).reqs.filter isIndexReq =
        (if env.uploadOk = true ∧
            uploadFileTypeFor (handleSubmit st env input files io ko keep).state tc = "doc"
         then [.indexReq tc] else []) ∧
      (env.uploadOk = false →
        (∃ pre m2,
          (handleSubmit st env input files io ko keep).state.messagesMap tc = pre ++ [m2] ∧
          m2.role = Role.assistant ∧ m2.content = uploadErrorText ∧
          m2.status = MsgStatus.complete) ∧
        (handleSubmit st env input files io ko keep).state.loadingChats tc = false ∧
        (handleSubmit st env input files io ko keep).state.pendingMessages tc = none ∧
        (handleSubmit st env input files io ko keep).reqs.filter isQueryReq = []) := by
  obtain ⟨tc, st0, mode, r0, hlink, heq, hru, hri, hrq, -, -⟩ :=
    handleSubmit_accepted_shape st env input files io ko keep hok
  obtain ⟨ha, hb, hd⟩ :=
    submitPhase2_spec st0 env tc (trimStr input) files mode ko keep r0 htok hnif
  rw [heq]
  refine ⟨tc, hlink, uploadFileTypeFor_cases _ tc, ?_, ?_, ?_⟩
  · rw [ha, hru, List.nil_append]
  · rw [hb, hri, List.nil_append]
  · intro hfail
    obtain ⟨hm, hl, hp, hq⟩ := hd hfail
    exact ⟨hm, hl, hp, by rw [hq, hrq]⟩

/-- Witness for C5: submitting `"hello"` with one document file from the
ready state issues one `"doc"`-tagged upload followed by an index request. -/
theorem upload_subprotocol_contract_witness :
    (handleSubmit readyState okEnv "hello" [docFile] none none false).ok = true ∧
    [docFile].any (fun f => f.isImage = false) = true ∧
    tokenPresent okEnv.user = true ∧
    (∃ tc,
      (readyState.activeChat = some tc ∨ (readyState.activeChat = none ∧
        okEnv.createNewChatResult.map (fun ch => ch.id) = some tc)) ∧
      (uploadFileTypeFor (handleSubmit readyState okEnv "hello" [docFile] none none false).state
          tc = "code" ∨
       uploadFileTypeFor (handleSubmit readyState okEnv "hello" [docFile] none none false).state
          tc = "doc") ∧
      (handleSubmit readyState okEnv "hello" [docFile] none none false).reqs.filter isUploadReq =
        [.uploadReq tc
          (uploadFileTypeFor
            (handleSubmit readyState okEnv "hello" [docFile] none none false).state tc)
          ([docFile].filter (fun f => f.isImage = false)).length] ∧
      (handleSubmit readyState okEnv "hello" [docFile] none none false).reqs.filter isIndexReq =
        (if okEnv.uploadOk = true ∧
            uploadFileTypeFor
              (handleSubmit readyState okEnv "hello" [docFile] none none false).state tc = "doc"
         then [.indexReq tc] else []) ∧
      (okEnv.uploadOk = false →
        (∃ pre m2,
          (handleSubmit readyState okEnv "hello" [docFile] none none false).state.messagesMap
              tc = pre ++ [m2] ∧
          m2.role = Role.assistant ∧ m2.content = uploadErrorText ∧
          m2.status = MsgStatus.complete) ∧
        (handleSubmit readyState okEnv "hello" [docFile] none none false).state.loadingChats
            tc = false ∧
        (handleSubmit readyState okEnv "hello" [docFile] none none false).state.pendingMessages
            tc = none ∧
        (handleSubmit readyState okEnv "hello" [docFile] none none false).reqs.filter
            isQueryReq = [])) :=
  ⟨by decide, by decide, by decide,
    upload_subprotocol_contract readyState okEnv "hello" [docFile] none none false
      (by decide) (by decide) (by decide)⟩

/-- Image-message fold, with identifier bounds: the appended messages all
carry ids below the final counter, and the counter never decreases. -/
theorem imageFold_shape (fs : List FileMeta) (st : CoordState) (tc : String) :
    ∃ imgs : List Message,
      (fs.foldl (fun s f => (createImageMessageFromFile s f tc).1) st).messagesMap tc
          = st.messagesMap tc ++ imgs ∧
      (∀ m ∈ imgs, m.role = Role.user ∧ m.status = MsgStatus.complete ∧
        ∃ f ∈ fs, m.content = imageJson f) ∧
      (∀ m ∈ imgs,
        m.id < (fs.foldl (fun s f => (createImageMessageFromFile s f tc).1) st).nextId) ∧
      st.nextId ≤ (fs.foldl (fun s f => (createImageMessageFromFile s f tc).1) st).nextId := by
  induction fs generalizing st with
  | nil =>
      exact ⟨[], by simp, by simp, by simp, Nat.le_refl _⟩
  | cons f fs ih =>
      have hstep : ∃ base : List Message,
          (createImageMessageFromFile st f tc).1.messagesMap tc
              = st.messagesMap tc ++ base ∧
          (∀ m ∈ base, m.role = Role.user ∧ m.status = MsgStatus.complete ∧
            m.content = imageJson f) ∧
          (∀ m ∈ base, m.id < (createImageMessageFromFile st f tc).1.nextId) ∧
          st.nextId ≤ (createImageMessageFromFile st f tc).1.nextId := by
        unfold createImageMessageFromFile
        split
        · exact ⟨[], by simp, by simp, by simp, Nat.le_refl _⟩
        · split
          · exact ⟨[], by simp, by simp, by simp, Nat.le_refl _⟩
          · refine ⟨[{ id := st.nextId, role := .user, content := imageJson f, status := .complete, imageResult := none }], ?_, ?_, ?_, ?_⟩
            · simp [addMessageToChat, mapSet]
            · intro m hm
              rw [List.mem_singleton.1 hm]
              exact ⟨rfl, rfl, rfl⟩
            · intro m hm
              rw [List.mem_singleton.1 hm]
              show st.nextId < (addMessageToChat st tc .user (imageJson f) .complete none).1.nextId
              simp [addMessageToChat]
            · show st.nextId ≤ (addMessageToChat st tc .user (imageJson f) .complete none).1.nextId
              simp [addMessageToChat]
      obtain ⟨base, hb1, hb2, hb3, hb4⟩ := hstep
      obtain ⟨imgs, hi1, hi2, hi3, hi4⟩ := ih ((createImageMessageFromFile st f tc).1)
      refine ⟨base ++ imgs, ?_, ?_, ?_, ?_⟩
      · rw [List.foldl_cons, hi1, hb1, List.append_assoc]
      · intro m hm
        rcases List.mem_append.1 hm with h | h
        · obtain ⟨h1, h2, h3⟩ := hb2 m h
          exact ⟨h1, h2, f, List.mem_cons_self f fs, h3⟩
        · obtain ⟨h1, h2, g, hg, h3⟩ := hi2 m h
          exact ⟨h1, h2, g, List.mem_cons_of_mem f hg, h3⟩
      · intro m hm
        rw [List.foldl_cons]
        rcases List.mem_append.1 hm with h | h
        · exact Nat.lt_of_lt_of_le (hb3 m h) hi4
        · exact hi3 m h
      · rw [List.foldl_cons]
        exact Nat.le_trans hb4 hi4

/-- Composition of two patches that both target the message `amId` and
preserve message ids. -/
theorem patchAt_comp (l : List Message) (amId : Nat) (F G : Message → Message)
    (hFid : ∀ m, (F m).id = m.id) :
    (l.map (fun m => if m.id = amId then F m else m)).map
        (fun m => if m.id = amId then G m else m) =
      l.map (fun m => if m.id = amId then G (F m) else m) := by
  rw [List.map_map]
  refine List.map_congr_left (fun m _ => ?_)
  by_cases h : m.id = amId <;> simp [h, hFid]

/-- Phase three touches at most the message `amId` of the target
conversation, preserving roles and ids. -/
theorem submitPhase3_messages (st : CoordState) (env : SubmitEnv) (tc um : String)
    (imgs : List FileMeta) (mode : Bool) (ko : Option KnowledgeBaseOptions)
    (keep : Bool) (amId : Nat) (r : List NetRequest) :
    ∃ F : Message → Message,
      (submitPhase3 st env tc um imgs mode ko keep amId r).state.messagesMap tc =
        (st.messagesMap tc).map (fun m => if m.id = amId then F m else m) ∧
      (∀ m, (F m).role = m.role) ∧ (∀ m, (F m).id = m.id) := by
  unfold submitPhase3 createQueryRequest
  dsimp only
  split
  · split
    · split
      · refine ⟨applyUpdate (.fields { isImageGeneration := some true }), ?_, ?_, ?_⟩
        · simp
        · intro m
          simp [applyUpdate]
        · intro m
          simp
      · refine ⟨applyUpdate (.fields { isImageGeneration := some true }), ?_, ?_, ?_⟩
        · simp
        · intro m
          simp [applyUpdate]
        · intro m
          simp
    · refine ⟨fun m => m, ?_, fun m => rfl, fun m => rfl⟩
      simp
  · refine ⟨applyUpdate (.fields { content := some "Files uploaded successfully.", status := some MsgStatus.complete }), ?_, ?_, ?_⟩
    · simp
    · intro m
      simp [applyUpdate]
    · intro m
      simp

/-- The upload block touches at most the message `amId` of the target
conversation, preserving roles and ids. -/
theorem submitUploadPhase_messages (st : CoordState) (env : SubmitEnv) (tc um : String)
    (imgs nif : List FileMeta) (mode : Bool) (ko : Option KnowledgeBaseOptions)
    (keep : Bool) (amId : Nat) (r : List NetRequest) :
    ∃ F : Message → Message,
      (submitUploadPhase st env tc um imgs nif mode ko keep amId r).state.messagesMap tc =
        (st.messagesMap tc).map (fun m => if m.id = amId then F m else m) ∧
      (∀ m, (F m).role = m.role) ∧ (∀ m, (F m).id = m.id) := by
  obtain ⟨hm, hp, hes, hl, hts, hac, hsr, hnc, hni, -, -⟩ :=
    uploadFilesToChat_spec (updateMessageInChat st tc amId uploadFlagPatch) env tc nif
  unfold submitUploadPhase
  dsimp only
  rcases hr : (uploadFilesToChat (updateMessageInChat st tc amId uploadFlagPatch)
      env tc nif).result with _ | dc
  · simp only [hr]
    refine ⟨fun m => applyUpdate uploadErrorPatch (applyUpdate uploadFlagPatch m), ?_, ?_, ?_⟩
    · show (updateMessageInChat (uploadFilesToChat
          (updateMessageInChat st tc amId uploadFlagPatch) env tc nif).state
          tc amId uploadErrorPatch).messagesMap tc = _
      rw [updateMessageInChat_messagesMap_self, hm, updateMessageInChat_messagesMap_self]
      exact patchAt_comp _ amId _ _ (fun m => by simp [uploadFlagPatch])
    · intro m
      simp [applyUpdate, uploadErrorPatch, uploadFlagPatch]
    · intro m
      simp [applyUpdate, uploadErrorPatch, uploadFlagPatch]
  · simp only [hr]
    obtain ⟨F3, h3, h3r, h3i⟩ := submitPhase3_messages
      (updateMessageInChat (uploadFilesToChat
        (updateMessageInChat st tc amId uploadFlagPatch) env tc nif).state
        tc amId uploadFlagOffPatch)
      env tc um imgs mode ko keep amId
      (r ++ (uploadFilesToChat (updateMessageInChat st tc amId uploadFlagPatch)
        env tc nif).reqs ++ [.updateFilesCallback tc dc.1 dc.2])
    refine ⟨fun m => F3 (applyUpdate uploadFlagOffPatch (applyUpdate uploadFlagPatch m)),
      ?_, ?_, ?_⟩
    · rw [h3, updateMessageInChat_messagesMap_self, hm, updateMessageInChat_messagesMap_self,
        patchAt_comp _ amId _ _ (fun m => by simp [uploadFlagOffPatch]),
        patchAt_comp _ amId _ _ (fun m => by simp [uploadFlagPatch])]
    · intro m
      rw [h3r]
      simp [applyUpdate, uploadFlagPatch, uploadFlagOffPatch]
    · intro m
      rw [h3i]
      simp [applyUpdate, uploadFlagPatch, uploadFlagOffPatch]

/-- The work block, on a submission with nonempty text, appends only
assistant messages after the existing list (whose ids are all below the
counter). -/
theorem submitPhase2b_messages (st : CoordState) (env : SubmitEnv) (tc um : String)
    (imgs nif : List FileMeta) (mode : Bool) (ko : Option KnowledgeBaseOptions)
    (keep : Bool) (r : List NetRequest)
    (htext : um ≠ "")
    (hbound : ∀ m ∈ st.messagesMap tc, m.id < st.nextId) :
    ∃ rest,
      (submitPhase2b st env tc um imgs nif mode ko keep r).state.messagesMap tc =
        st.messagesMap tc ++ rest ∧
      ∀ m ∈ rest, m.role = Role.assistant := by
  unfold submitPhase2b
  dsimp only
  rw [if_pos (Or.inr (Or.inl htext))]
  have hmm5 : (addMessageToChat { st with loadingChats := mapSet st.loadingChats tc true }
      tc .assistant "" .streaming none).1.messagesMap tc =
      st.messagesMap tc ++
        [{ id := st.nextId, role := .assistant, content := "", status := .streaming, imageResult := none }] := by
    simp [addMessageToChat]
  have hid5 : (addMessageToChat { st with loadingChats := mapSet st.loadingChats tc true }
      tc .assistant "" .streaming none).2.id = st.nextId := by
    simp [addMessageToChat]
  split
  · obtain ⟨F, hF, hFrole, hFid⟩ := submitUploadPhase_messages
      (addMessageToChat { st with loadingChats := mapSet st.loadingChats tc true }
        tc .assistant "" .streaming none).1 env tc um imgs nif mode ko keep
      (addMessageToChat { st with loadingChats := mapSet st.loadingChats tc true }
        tc .assistant "" .streaming none).2.id r
    refine ⟨[F { id := st.nextId, role := .assistant, content := "", status := .streaming, imageResult := none }], ?_, ?_⟩
    · rw [hF, hmm5, hid5, List.map_append]
      congr 1
      · refine (List.map_congr_left (fun m hm => ?_)).trans (List.map_id _)
        show (if m.id = st.nextId then _ else m) = m
        rw [if_neg (Nat.ne_of_lt (hbound m hm))]
      · simp
    · intro m hm
      rw [List.mem_singleton.1 hm, hFrole]
  · obtain ⟨F, hF, hFrole, hFid⟩ := submitPhase3_messages
      (addMessageToChat { st with loadingChats := mapSet st.loadingChats tc true }
        tc .assistant "" .streaming none).1 env tc um imgs mode ko keep
      (addMessageToChat { st with loadingChats := mapSet st.loadingChats tc true }
        tc .assistant "" .streaming none).2.id r
    refine ⟨[F { id := st.nextId, role := .assistant, content := "", status := .streaming, imageResult := none }], ?_, ?_⟩
    · rw [hF, hmm5, hid5, List.map_append]
      congr 1
      · refine (List.map_congr_left (fun m hm => ?_)).trans (List.map_id _)
        show (if m.id = st.nextId then _ else m) = m
        rw [if_neg (Nat.ne_of_lt (hbound m hm))]
      · simp
    · intro m hm
      rw [List.mem_singleton.1 hm, hFrole]

/-- Phase two, on a submission with nonempty text: the new list is the old
one followed by the image messages, then exactly one completed user message
carrying the text, then assistant messages only. -/
theorem submitPhase2_messages (st : CoordState) (env : SubmitEnv) (tc um : String)
    (files : List FileMeta) (mode : Bool) (ko : Option KnowledgeBaseOptions)
    (keep : Bool) (r : List NetRequest)
    (htext : um ≠ "")
    (hbound : ∀ m ∈ st.messagesMap tc, m.id < st.nextId) :
    ∃ imgs umsg rest,
      (submitPhase2 st env tc um files mode ko keep r).state.messagesMap tc =
        st.messagesMap tc ++ imgs ++ [umsg] ++ rest ∧
      (∀ m ∈ imgs, m.role = Role.user ∧ m.status = MsgStatus.complete ∧
        ∃ f ∈ files, m.content = imageJson f) ∧
      umsg.role = Role.user ∧ umsg.content = um ∧ umsg.status = MsgStatus.complete ∧
      (∀ m ∈ rest, m.role = Role.assistant) := by
  unfold submitPhase2
  dsimp only
  rw [if_pos (Or.inl htext), if_pos htext]
  obtain ⟨imgsL, hf1, hf2, hf3, hf4⟩ := imageFold_shape (files.filter (fun f => f.isImage))
    { st with hasStartedResponse := true } tc
  generalize hg : (files.filter (fun f => f.isImage)).foldl
      (fun s f => (createImageMessageFromFile s f tc).1)
      { st with hasStartedResponse := true } = st2 at hf1 hf3 hf4 ⊢
  have hmm3 : (addMessageToChat st2 tc .user um .complete none).1.messagesMap tc =
      st.messagesMap tc ++ imgsL ++
        [{ id := st2.nextId, role := .user, content := um, status := .complete, imageResult := none }] := by
    simp [addMessageToChat, hf1]
  have hbound3 : ∀ m ∈ (addMessageToChat st2 tc .user um .complete none).1.messagesMap tc,
      m.id < (addMessageToChat st2 tc .user um .complete none).1.nextId := by
    intro m hm
    rw [hmm3] at hm
    have hnx : (addMessageToChat st2 tc .user um .complete none).1.nextId = st2.nextId + 1 := by
      simp [addMessageToChat]
    rw [hnx]
    rcases List.mem_append.1 hm with hm' | hm'
    · rcases List.mem_append.1 hm' with hm'' | hm''
      · exact Nat.lt_of_lt_of_le (Nat.lt_of_lt_of_le (hbound m hm'') hf4) (Nat.le_succ _)
      · exact Nat.lt_of_lt_of_le (hf3 m hm'') (Nat.le_succ _)
    · rw [List.mem_singleton.1 hm']
      exact Nat.lt_succ_self _
  obtain ⟨rest, hb1, hb2⟩ := submitPhase2b_messages
    (addMessageToChat st2 tc .user um .complete none).1 env tc um
    (files.filter (fun f => f.isImage)) (files.filter (fun f => f.isImage = false))
    mode ko keep r htext hbound3
  refine ⟨imgsL,
    { id := st2.nextId, role := .user, content := um, status := .complete, imageResult := none },
    rest, ?_, ?_, rfl, rfl, rfl, hb2⟩
  · rw [hb1, hmm3]
  · intro m hm
    obtain ⟨h1, h2, f, hfm, h3⟩ := hf2 m hm
    exact ⟨h1, h2, f, (List.mem_filter.1 hfm).1, h3⟩

/-! ### Claim C9 -/

/-- C9 counterexample: the submission of empty text with one image file from
the ready state is accepted, yet no message whose content is the
`"Files shared"` placeholder is materialized — the single user message added
is the image-descriptor message. The placeholder branch requires a non-image
file with empty text, a combination the entry guard rejects. -/
theorem files_shared_placeholder_counterexample :
    (handleSubmit readyState okEnv "" [imgFile] none none false).ok = true ∧
    ((handleSubmit readyState okEnv "" [imgFile] none none false).state.messagesMap "c").countP
        (fun m => decide (m.content = "Files shared")) = 0 ∧
    ((handleSubmit readyState okEnv "" [imgFile] none none false).state.messagesMap "c").countP
        (fun m => decide (m.role = Role.user)) = 1 ∧
    ((handleSubmit readyState okEnv "" [imgFile] none none false).state.messagesMap "c").countP
        (fun m => decide (m.content = imageJson imgFile)) = 1 := by
  decide

/-- C9 (amended): every accepted submission with nonempty trimmed text (from
a state whose message ids are below the id counter) appends to the target
conversation: the image-descriptor user messages, then exactly one completed
user message carrying the trimmed text, then assistant messages only. When
the trimmed text is empty the submission appends no text-carrying user
message at all: the `"Files shared"` placeholder branch is unreachable,
because non-image files without text are rejected up front. -/
theorem user_message_materialization (st : CoordState) (env : SubmitEnv) (input : String)
    (files : List FileMeta) (io : Option ImageOptions) (ko : Option KnowledgeBaseOptions)
    (keep : Bool)
    (hok : (handleSubmit st env input files io ko keep).ok = true)
    (htext : trimStr input ≠ "")
    (hfresh : ∀ c, ∀ m ∈ st.messagesMap c, m.id < st.nextId) :
    ∃ tc imgs umsg rest,
      (st.activeChat = some tc ∨ (st.activeChat = none ∧
        env.createNewChatResult.map (fun ch => ch.id) = some tc)) ∧
      (handleSubmit st env input files io ko keep).state.messagesMap tc =
        st.messagesMap tc ++ imgs ++ [umsg] ++ rest ∧
      (∀ m ∈ imgs, m.role = Role.user ∧ m.status = MsgStatus.complete ∧
        ∃ f ∈ files, m.content = imageJson f) ∧
      umsg.role = Role.user ∧ umsg.content = trimStr input ∧
      umsg.status = MsgStatus.complete ∧
      (∀ m ∈ rest, m.role = Role.assistant) := by
  obtain ⟨tc, st0, mode, r0, hlink, heq, -, -, -, hmm0, hni0⟩ :=
    handleSubmit_accepted_shape st env input files io ko keep hok
  obtain ⟨imgs, umsg, rest, h1, h2, h3, h4, h5, h6⟩ :=
    submitPhase2_messages st0 env tc (trimStr input) files mode ko keep r0 htext
      (by rw [hmm0, hni0]; exact hfresh tc)
  rw [heq]
  refine ⟨tc, imgs, umsg, rest, hlink, ?_, h2, h3, h4, h5, h6⟩
  rw [h1, hmm0]

/-- Witness for C9: submitting `"hello"` with no files from the ready state
appends exactly the user message `"hello"` and an assistant message. -/
theorem user_message_materialization_witness :
    (handleSubmit readyState okEnv "hello" [] none none false).ok = true ∧
    trimStr "hello" ≠ "" ∧
    (∀ c, ∀ m ∈ readyState.messagesMap c, m.id < readyState.nextId) ∧
    (∃ tc imgs umsg rest,
      (readyState.activeChat = some tc ∨ (readyState.activeChat = none ∧
        okEnv.createNewChatResult.map (fun ch => ch.id) = some tc)) ∧
      (handleSubmit readyState okEnv "hello" [] none none false).state.messagesMap tc =
        readyState.messagesMap tc ++ imgs ++ [umsg] ++ rest ∧
      (∀ m ∈ imgs, m.role = Role.user ∧ m.status = MsgStatus.complete ∧
        ∃ f ∈ ([] : List FileMeta), m.content = imageJson f) ∧
      umsg.role = Role.user ∧ umsg.content = trimStr "hello" ∧
      umsg.status = MsgStatus.complete ∧
      (∀ m ∈ rest, m.role = Role.assistant)) :=
  ⟨by decide, by decide,
    by
      intro c m hm
      simp [readyState] at hm,
    user_message_materialization readyState okEnv "hello" [] none none false
      (by decide) (by decide)
      (by
        intro c m hm
        simp [readyState] at hm)⟩

end GptClient
